import Mathlib

/-!
Verification development for a small C diagnostic front end
(tokenizer, lexical error detector, recursive-descent parser,
token-driven semantic type checker, scoped symbol table).

The Lean definitions below are a shallow embedding of the Python
sources:
  src/lexer/tokenizer.py        (Tokenizer, Token, TokenType)
  src/lexer/error_detection.py  (LexicalErrorDetector)
  src/parser/syntax_analyzer.py (SyntaxAnalyzer)
  src/semantic/type_checker.py  (TypeChecker)
  src/semantic/symbol_table.py  (SymbolTable)

Modelling conventions:
  - Python exceptions are explicit error values (Except / crash
    constructors); an uncaught Python exception is a crash value.
  - Unbounded while-loops and recursion are given an explicit fuel
    argument; running out of fuel is a distinct result (none / fuelOut),
    so genuine non-termination of the source is provable as
    "no amount of fuel produces a result".
  - Python dicts keyed by strings are association lists with
    replace-on-insert; only lookup, containment and overwrite are used
    by the sources, so ordering of unrelated keys is irrelevant.
  - Diagnostic message strings are represented by one inductive
    constructor per distinct Python format string, carrying the
    interpolated values; distinct format strings map to distinct
    constructors.
-/

set_option autoImplicit false

deriving instance DecidableEq for Except

namespace PblCd

/-! ## Tokens (src/lexer/tokenizer.py, TokenType and Token) -/

inductive TokenType where
  | INT | CHAR | FLOAT | VOID | IF | ELSE | WHILE | FOR | RETURN
  | PLUS | MINUS | MULTIPLY | DIVIDE | ASSIGN | EQUAL | NOT_EQUAL
  | LESS | GREATER | LESS_EQUAL | GREATER_EQUAL
  | SEMICOLON | COMMA | LPAREN | RPAREN | LBRACE | RBRACE | LBRACKET | RBRACKET
  | IDENTIFIER | INTEGER | FLOAT_LITERAL | CHAR_LITERAL | STRING_LITERAL | EOF
  deriving DecidableEq, Repr, Fintype

structure Token where
  type : TokenType
  value : String
  line : Int
  column : Int
  deriving DecidableEq, Repr

/-! ## Tokenizer state

Python keeps (source, position, line, column) with
current_char = source[position]; we keep the remaining suffix
source[position:] together with line and column.  line and column are
Int because Python lets column go negative (column - 1 after a newline
reset sets column 0, so an operator token directly before a newline
records column -1). -/

structure LexState where
  rest : List Char
  line : Int
  col : Int
  deriving DecidableEq, Repr

/-- Python str.isspace for the ASCII whitespace actually produced by C
source text. -/
def isSpaceChar (c : Char) : Bool :=
  c = ' ' || c = '\t' || c = '\n' || c = '\r' || c = '\x0b' || c = '\x0c'

/-- Python str.isalpha restricted to ASCII (the sources are ASCII C). -/
def isAlphaChar (c : Char) : Bool :=
  ('a' ≤ c && c ≤ 'z') || ('A' ≤ c && c ≤ 'Z')

/-- Python str.isdigit restricted to ASCII. -/
def isDigitChar (c : Char) : Bool :=
  '0' ≤ c && c ≤ '9'

def isAlnumChar (c : Char) : Bool :=
  isAlphaChar c || isDigitChar c

def isIdentChar (c : Char) : Bool :=
  isAlnumChar c || c = '_'

/-- Tokenizer.advance: position += 1; column += 1; if the new current
character is a newline, line += 1 and column = 0.  The first component
of the result is the new line, the second the new column, given the
remaining characters after the move. -/
def newPos (rest : List Char) (line col : Int) : Int × Int :=
  match rest with
  | c :: _ => if c = '\n' then (line + 1, 0) else (line, col + 1)
  | [] => (line, col + 1)

def advance (st : LexState) : LexState :=
  let r := st.rest.tail
  let p := newPos r st.line st.col
  ⟨r, p.1, p.2⟩

/-- Tokenizer.skip_whitespace, iterating directly on the remaining
characters (structurally recursive image of the while-loop). -/
def skipWhitespaceGo : List Char → Int → Int → LexState
  | [], line, col => ⟨[], line, col⟩
  | c :: r, line, col =>
    if isSpaceChar c then
      let p := newPos r line col
      skipWhitespaceGo r p.1 p.2
    else ⟨c :: r, line, col⟩

def skipWhitespace (st : LexState) : LexState :=
  skipWhitespaceGo st.rest st.line st.col

/-- Body of the single-line comment loop of Tokenizer.skip_comment:
advance while the current character exists and is not a newline. -/
def lineCommentGo : List Char → Int → Int → LexState
  | [], line, col => ⟨[], line, col⟩
  | c :: r, line, col =>
    if c = '\n' then ⟨c :: r, line, col⟩
    else
      let p := newPos r line col
      lineCommentGo r p.1 p.2

/-- Body of the block comment loop of Tokenizer.skip_comment:
advance while not (current = star and peek = slash). -/
def blockCommentGo : List Char → Int → Int → LexState
  | [], line, col => ⟨[], line, col⟩
  | c :: r, line, col =>
    if c = '*' && r.head? = some '/' then ⟨c :: r, line, col⟩
    else
      let p := newPos r line col
      blockCommentGo r p.1 p.2

/-- Tokenizer.skip_comment. -/
def skipComment (st : LexState) : LexState :=
  match st.rest with
  | c :: r =>
    if c = '/' && r.head? = some '/' then
      lineCommentGo st.rest st.line st.col
    else if c = '/' && r.head? = some '*' then
      let st1 := advance (advance st)
      let st2 := blockCommentGo st1.rest st1.line st1.col
      match st2.rest with
      | _ :: _ => advance (advance st2)
      | [] => st2
    else st
  | [] => st

/-- Keyword table of Tokenizer.__init__. -/
def keywordType (v : String) : TokenType :=
  if v = "int" then .INT
  else if v = "char" then .CHAR
  else if v = "float" then .FLOAT
  else if v = "void" then .VOID
  else if v = "if" then .IF
  else if v = "else" then .ELSE
  else if v = "while" then .WHILE
  else if v = "for" then .FOR
  else if v = "return" then .RETURN
  else .IDENTIFIER

/-- Character-gathering loop of Tokenizer.get_identifier. -/
def identLoopGo : List Char → Int → Int → String → String × LexState
  | [], line, col, acc => (acc, ⟨[], line, col⟩)
  | c :: r, line, col, acc =>
    if isIdentChar c then
      let p := newPos r line col
      identLoopGo r p.1 p.2 (acc.push c)
    else (acc, ⟨c :: r, line, col⟩)

/-- Tokenizer.get_identifier. -/
def getIdentifier (st : LexState) : Token × LexState :=
  let startCol := st.col
  let res := identLoopGo st.rest st.line st.col ""
  (⟨keywordType res.1, res.1, res.2.line, startCol⟩, res.2)

/-- Character-gathering loop of Tokenizer.get_number; a second interior
decimal point stops the loop before being consumed. -/
def numberLoopGo : List Char → Int → Int → String → Bool → String × Bool × LexState
  | [], line, col, acc, isF => (acc, isF, ⟨[], line, col⟩)
  | c :: r, line, col, acc, isF =>
    if isDigitChar c || c = '.' then
      if c = '.' && isF then (acc, isF, ⟨c :: r, line, col⟩)
      else
        let p := newPos r line col
        numberLoopGo r p.1 p.2 (acc.push c) (isF || c = '.')
    else (acc, isF, ⟨c :: r, line, col⟩)

/-- Tokenizer.get_number. -/
def getNumber (st : LexState) : Token × LexState :=
  let startCol := st.col
  let res := numberLoopGo st.rest st.line st.col "" false
  let tt : TokenType := if res.2.1 then .FLOAT_LITERAL else .INTEGER
  (⟨tt, res.1, res.2.2.line, startCol⟩, res.2.2)

/-- A one-character operator or delimiter token: advance, then record
(line, column - 1) of the post-advance state, as the Python does. -/
def singleTok (st : LexState) (tt : TokenType) (v : String) : Token × LexState :=
  let st1 := advance st
  (⟨tt, v, st1.line, st1.col - 1⟩, st1)

/-- The equals-sign case: ASSIGN, or EQUAL when followed by a second
equals sign. -/
def assignTok (st : LexState) : Token × LexState :=
  let st1 := advance st
  match st1.rest.head? with
  | some c =>
    if c = '=' then
      let st2 := advance st1
      (⟨.EQUAL, "==", st2.line, st2.col - 2⟩, st2)
    else (⟨.ASSIGN, "=", st1.line, st1.col - 1⟩, st1)
  | none => (⟨.ASSIGN, "=", st1.line, st1.col - 1⟩, st1)

/-- The SyntaxError raised by Tokenizer.get_next_token on an
unrecognized character, with the offending character and position. -/
structure LexErr where
  ch : Char
  line : Int
  col : Int
  deriving DecidableEq, Repr

/-- Dispatch on the current character c, mirroring the if-chain of the
Tokenizer.get_next_token loop body after the whitespace and comment
cases. -/
def dispatchChar (c : Char) (st : LexState) : Except LexErr (Token × LexState) :=
  if isAlphaChar c || c = '_' then .ok (getIdentifier st)
  else if isDigitChar c then .ok (getNumber st)
  else if c = '+' then .ok (singleTok st .PLUS "+")
  else if c = '-' then .ok (singleTok st .MINUS "-")
  else if c = '*' then .ok (singleTok st .MULTIPLY "*")
  else if c = '/' then .ok (singleTok st .DIVIDE "/")
  else if c = '=' then .ok (assignTok st)
  else if c = ';' then .ok (singleTok st .SEMICOLON ";")
  else if c = ',' then .ok (singleTok st .COMMA ",")
  else if c = '(' then .ok (singleTok st .LPAREN "(")
  else if c = ')' then .ok (singleTok st .RPAREN ")")
  else if c = '{' then .ok (singleTok st .LBRACE "\x7b")
  else if c = '}' then .ok (singleTok st .RBRACE "\x7d")
  else if c = '[' then .ok (singleTok st .LBRACKET "[")
  else if c = ']' then .ok (singleTok st .RBRACKET "]")
  else .error ⟨c, st.line, st.col⟩

/-- Dispatch part of Tokenizer.get_next_token, reached when the
current character is neither skippable whitespace nor the start of a
comment (or the input is exhausted, giving the EOF token). -/
def dispatchToken (st : LexState) : Except LexErr (Token × LexState) :=
  match st.rest.head? with
  | none => .ok (⟨.EOF, "", st.line, st.col⟩, st)
  | some c => dispatchChar c st

/-- Tokenizer.get_next_token.  The while-loop re-enters after skipping
whitespace or a comment; fuel bounds the number of re-entries and is
always called with more fuel than remaining characters, which is proved
sufficient below. -/
def getNextTokenF : Nat → LexState → Option (Except LexErr (Token × LexState))
  | 0, _ => none
  | f + 1, st =>
    match st.rest with
    | [] => some (.ok (⟨.EOF, "", st.line, st.col⟩, st))
    | c :: r =>
      if isSpaceChar c then getNextTokenF f (skipWhitespace st)
      else if c = '/' && (r.head? = some '/' || r.head? = some '*') then
        getNextTokenF f (skipComment st)
      else some (dispatchToken st)

/-- Tokenizer.tokenize: collect tokens until EOF. -/
def tokenizeF : Nat → LexState → Option (Except LexErr (List Token))
  | 0, _ => none
  | f + 1, st =>
    match getNextTokenF (st.rest.length + 1) st with
    | none => none
    | some (.error e) => some (.error e)
    | some (.ok (t, st1)) =>
      if t.type = .EOF then some (.ok [t])
      else
        match tokenizeF f st1 with
        | none => none
        | some (.error e) => some (.error e)
        | some (.ok ts) => some (.ok (t :: ts))

def initLexState (source : String) : LexState :=
  ⟨source.toList, 1, 1⟩

/-- Tokenizer(source).tokenize().  The outer some is fuel sufficiency
(proved to always hold); the Except layer is the Python SyntaxError
raised on an unrecognized character. -/
def tokenize (source : String) : Option (Except LexErr (List Token)) :=
  tokenizeF (source.toList.length + 1) (initLexState source)

/-! ## Lexical error detection (src/lexer/error_detection.py)

Every diagnostic record in the Python sources carries a severity
string; the detector uses error and warning, the parser and the
type checker always use error. -/

inductive Sev where
  | error | warning | info
  deriving DecidableEq, Repr

/-- One constructor per distinct message format string of
LexicalErrorDetector. -/
inductive LexMsg where
  | identStartsWithNumber (v : String)
  | invalidIdentChars (v : String)
  | floatMultipleDots
  | floatTrailingDot
  | consecutiveOperators
  | missingSemicolon
  deriving DecidableEq, Repr

structure LexicalError where
  line : Int
  column : Int
  message : LexMsg
  severity : Sev
  deriving DecidableEq, Repr

/-- The no_semicolon_after set of
LexicalErrorDetector._should_have_semicolon. -/
def noSemicolonAfter : TokenType → Bool
  | .LBRACE | .RBRACE | .SEMICOLON | .IF | .ELSE | .WHILE | .FOR => true
  | _ => false

/-- The need_semicolon_after set of
LexicalErrorDetector._should_have_semicolon. -/
def needSemicolonAfter : TokenType → Bool
  | .IDENTIFIER | .INTEGER | .FLOAT_LITERAL | .CHAR_LITERAL
  | .STRING_LITERAL | .RPAREN | .RBRACKET => true
  | _ => false

/-- LexicalErrorDetector._should_have_semicolon. -/
def shouldHaveSemicolon (prev cur : Token) : Bool :=
  needSemicolonAfter prev.type && !noSemicolonAfter cur.type &&
    !(cur.type = .SEMICOLON)

def isArithOp : TokenType → Bool
  | .PLUS | .MINUS | .MULTIPLY | .DIVIDE => true
  | _ => false

/-- LexicalErrorDetector._check_identifier.  Python indexes
token.value[0], so an IDENTIFIER token with empty text raises
IndexError: that is the none result (such a token is never produced by
the tokenizer). -/
def checkIdentifier (t : Token) : Option (List LexicalError) :=
  match t.value.toList with
  | [] => none
  | c0 :: cs =>
    let e1 : List LexicalError :=
      if isDigitChar c0 then [⟨t.line, t.column, .identStartsWithNumber t.value, .error⟩]
      else []
    let e2 : List LexicalError :=
      if (c0 :: cs).any (fun c => !isIdentChar c) then
        [⟨t.line, t.column, .invalidIdentChars t.value, .error⟩]
      else []
    some (e1 ++ e2)

/-- LexicalErrorDetector._check_number (only float literals are
examined). -/
def checkNumber (t : Token) : List LexicalError :=
  if t.type = .FLOAT_LITERAL then
    (if (t.value.toList.count '.') > 1 then
      [⟨t.line, t.column, .floatMultipleDots, .error⟩]
     else []) ++
    (if t.value.toList.getLast? = some '.' then
      [⟨t.line, t.column, .floatTrailingDot, .warning⟩]
     else [])
  else []

/-- LexicalErrorDetector._check_operator: consecutive arithmetic
operators.  prev? is the token before the current one, none at index
0 (the Python guards with index > 0). -/
def checkOperator (prev? : Option Token) (t : Token) : List LexicalError :=
  match prev? with
  | some p =>
    if isArithOp p.type then [⟨t.line, t.column, .consecutiveOperators, .error⟩]
    else []
  | none => []

/-- The type-specific checks of one LexicalErrorDetector.detect_errors
iteration (identifier, number and operator dispatch). -/
def typeErrsOf (prev? : Option Token) (t : Token) : Option (List LexicalError) :=
  match t.type with
  | .IDENTIFIER => checkIdentifier t
  | .INTEGER | .FLOAT_LITERAL => some (checkNumber t)
  | .PLUS | .MINUS | .MULTIPLY | .DIVIDE => some (checkOperator prev? t)
  | _ => some []

/-- The missing-semicolon pair check of one detect_errors iteration. -/
def semiOf (prev? : Option Token) (t : Token) : List LexicalError :=
  match prev? with
  | some p =>
    if shouldHaveSemicolon p t then [⟨t.line, t.column, .missingSemicolon, .error⟩]
    else []
  | none => []

/-- One iteration of the LexicalErrorDetector.detect_errors loop:
the type-specific check for the current token, then the
missing-semicolon pair check against the previous token. -/
def perToken (prev? : Option Token) (t : Token) : Option (List LexicalError) :=
  match typeErrsOf prev? t with
  | none => none
  | some es => some (es ++ semiOf prev? t)

def detGo : Option Token → List Token → Option (List LexicalError)
  | _, [] => some []
  | prev?, t :: rest =>
    match perToken prev? t with
    | none => none
    | some es =>
      match detGo (some t) rest with
      | none => none
      | some es2 => some (es ++ es2)

/-- LexicalErrorDetector().detect_errors(tokens); none is the
IndexError raised on an empty-text IDENTIFIER token. -/
def detectErrors (tokens : List Token) : Option (List LexicalError) :=
  detGo none tokens

/-- True exactly for the missing-semicolon diagnostic. -/
def isMissingSemiErr (e : LexicalError) : Bool :=
  match e.message with
  | .missingSemicolon => true
  | _ => false

/-! The next two definitions and missingSemiPer are written from the
words of the specification (spec section 4.2 and claim C9), to be
compared with the detector embedded above: the spec lists the prev
kinds that demand a semicolon and the cur kinds that excuse one, and
fires on every adjacent pair (prev, cur) matching them. -/

def claimNeedSemiPrev : TokenType → Bool
  | .IDENTIFIER | .INTEGER | .FLOAT_LITERAL | .CHAR_LITERAL
  | .STRING_LITERAL | .RPAREN | .RBRACKET => true
  | _ => false

def claimNoSemiCur : TokenType → Bool
  | .LBRACE | .RBRACE | .SEMICOLON | .IF | .ELSE | .WHILE | .FOR => true
  | _ => false

/-- The spec-side missing-semicolon diagnostics: one per adjacent
token pair whose prev kind demands and whose cur kind does not excuse
a semicolon, positioned at cur. -/
def missingSemiPer (ts : List Token) : List LexicalError :=
  (ts.zip ts.tail).filterMap fun pc =>
    if claimNeedSemiPrev pc.1.type && !claimNoSemiCur pc.2.type then
      some ⟨pc.2.line, pc.2.column, .missingSemicolon, .error⟩
    else none

/-- The spec-side missing-semicolon verdict for one adjacent pair
(previous token, current token), none at the first token. -/
def claimSemiOf (prev? : Option Token) (t : Token) : List LexicalError :=
  match prev? with
  | some p =>
    if claimNeedSemiPrev p.type && !claimNoSemiCur t.type then
      [⟨t.line, t.column, .missingSemicolon, .error⟩]
    else []
  | none => []

/-- Recursive presentation of missingSemiPer, carrying the previous
token, used to relate it to the detector loop. -/
def semiGo : Option Token → List Token → List LexicalError
  | _, [] => []
  | prev?, t :: rest => claimSemiOf prev? t ++ semiGo (some t) rest

/-! ## Parser (src/parser/syntax_analyzer.py)

The analyzer keeps (errors, current_token_index) over a fixed token
list.  All parse methods are while-loops / recursion without any
progress guarantee, so each gets a fuel argument decremented on every
nested call; none models a computation that has not finished within the
given fuel.  Severity is always error and the suggestion text is
determined by the message, so only (line, column, message) is kept. -/

/-- One constructor per distinct SyntaxError message string of
SyntaxAnalyzer (the two productions sharing the literal string
Expected rparen after condition share one constructor, and likewise
for rparen after function arguments). -/
inductive SynMsg where
  | expectedFunctionName
  | expectedLParenAfterFunctionName
  | expectedRParenAfterParameterList
  | expectedLBraceForFunctionBody
  | expectedRBraceToEndFunctionBody
  | invalidParameterType
  | expectedParameterName
  | invalidStatement
  | expectedLParenAfterIf
  | expectedRParenAfterCondition
  | expectedLBraceForIfBody
  | expectedRBraceToEndIfBody
  | expectedLBraceForElseBody
  | expectedRBraceToEndElseBody
  | expectedLParenAfterWhile
  | expectedLBraceForWhileBody
  | expectedRBraceToEndWhileBody
  | expectedLParenAfterFor
  | expectedSemicolonAfterForCondition
  | expectedRParenAfterForIncrement
  | expectedLBraceForForBody
  | expectedRBraceToEndForBody
  | expectedSemicolonAfterReturn
  | expectedVariableName
  | expectedSemicolonAfterVariableDeclaration
  | expectedRParenAfterFunctionArguments
  | expectedSemicolonAfterFunctionCall
  | expectedAssignForAssignment
  | expectedSemicolonAfterAssignment
  | expectedRParenAfterExpression
  | invalidExpression
  deriving DecidableEq, Repr

structure SynErr where
  line : Int
  column : Int
  message : SynMsg
  deriving DecidableEq, Repr

structure PState where
  errors : List SynErr
  idx : Nat
  deriving DecidableEq, Repr

/-- SyntaxAnalyzer._current_token: the token at the cursor, clamping
past-the-end reads to the final token of the list (Python
tokens[-1]).  On an empty token list Python would raise; claims only
concern token lists ending in EOF, which are nonempty, where the
default is never reached. -/
def currentToken (ts : List Token) (s : PState) : Token :=
  if h : s.idx < ts.length then ts.get ⟨s.idx, h⟩
  else ts.getLastD ⟨.EOF, "", 0, 0⟩

/-- SyntaxAnalyzer._next_token (only the cursor movement; callers that
use the returned token re-read via currentToken). -/
def nextTokenP (s : PState) : PState :=
  { s with idx := s.idx + 1 }

/-- Record a SyntaxError at the current token. -/
def pushSynErr (ts : List Token) (s : PState) (m : SynMsg) : PState :=
  { s with errors :=
      s.errors ++ [⟨(currentToken ts s).line, (currentToken ts s).column, m⟩] }

/-- SyntaxAnalyzer._expect: consume on match, otherwise record the
given message at the current position without advancing. -/
def expectTok (ts : List Token) (tt : TokenType) (m : SynMsg) (s : PState) :
    Bool × PState :=
  if (currentToken ts s).type = tt then (true, nextTokenP s)
  else (false, pushSynErr ts s m)

def isTypeStart : TokenType → Bool
  | .INT | .CHAR | .FLOAT | .VOID => true
  | _ => false

def isParamType : TokenType → Bool
  | .INT | .CHAR | .FLOAT => true
  | _ => false

mutual

/-- SyntaxAnalyzer._parse_program (its while-loop over top-level
constructs). -/
def parseProgram (ts : List Token) : Nat → PState → Option PState
  | 0, _ => none
  | f + 1, s =>
    if (currentToken ts s).type = .EOF then some s
    else if isTypeStart (currentToken ts s).type then
      match parseFunctionDeclaration ts f s with
      | none => none
      | some s1 => parseProgram ts f s1
    else
      match parseStatement ts f s with
      | none => none
      | some s1 => parseProgram ts f s1

/-- SyntaxAnalyzer._parse_function_declaration. -/
def parseFunctionDeclaration (ts : List Token) : Nat → PState → Option PState
  | 0, _ => none
  | f + 1, s =>
    let s := nextTokenP s
    let r1 := expectTok ts .IDENTIFIER .expectedFunctionName s
    if !r1.1 then some r1.2 else
    let r2 := expectTok ts .LPAREN .expectedLParenAfterFunctionName r1.2
    if !r2.1 then some r2.2 else
    match parseParameterList ts f r2.2 with
    | none => none
    | some s3 =>
      let r4 := expectTok ts .RPAREN .expectedRParenAfterParameterList s3
      if !r4.1 then some r4.2 else
      let r5 := expectTok ts .LBRACE .expectedLBraceForFunctionBody r4.2
      if !r5.1 then some r5.2 else
      match parseBlock ts f r5.2 with
      | none => none
      | some s6 =>
        let r7 := expectTok ts .RBRACE .expectedRBraceToEndFunctionBody s6
        some r7.2

/-- SyntaxAnalyzer._parse_parameter_list (early return on an
immediate closing parenthesis, then the item loop). -/
def parseParameterList (ts : List Token) : Nat → PState → Option PState
  | 0, _ => none
  | f + 1, s =>
    if (currentToken ts s).type = .RPAREN then some s
    else parseParamItems ts f s

/-- The while-True item loop of _parse_parameter_list. -/
def parseParamItems (ts : List Token) : Nat → PState → Option PState
  | 0, _ => none
  | f + 1, s =>
    if !isParamType (currentToken ts s).type then
      some (pushSynErr ts s .invalidParameterType)
    else
      let s := nextTokenP s
      let r := expectTok ts .IDENTIFIER .expectedParameterName s
      if !r.1 then some r.2
      else if (currentToken ts r.2).type = .COMMA then
        parseParamItems ts f (nextTokenP r.2)
      else some r.2

/-- SyntaxAnalyzer._parse_block: statements until a closing brace. -/
def parseBlock (ts : List Token) : Nat → PState → Option PState
  | 0, _ => none
  | f + 1, s =>
    if (currentToken ts s).type = .RBRACE then some s
    else
      match parseStatement ts f s with
      | none => none
      | some s1 => parseBlock ts f s1

/-- SyntaxAnalyzer._parse_statement. -/
def parseStatement (ts : List Token) : Nat → PState → Option PState
  | 0, _ => none
  | f + 1, s =>
    match (currentToken ts s).type with
    | .IF => parseIfStatement ts f s
    | .WHILE => parseWhileStatement ts f s
    | .FOR => parseForStatement ts f s
    | .RETURN => parseReturnStatement ts f s
    | .INT | .CHAR | .FLOAT => parseVariableDeclaration ts f s
    | .IDENTIFIER => parseAssignmentOrFunctionCall ts f s
    | _ => some (nextTokenP (pushSynErr ts s .invalidStatement))

/-- SyntaxAnalyzer._parse_if_statement. -/
def parseIfStatement (ts : List Token) : Nat → PState → Option PState
  | 0, _ => none
  | f + 1, s =>
    let s := nextTokenP s
    let r1 := expectTok ts .LPAREN .expectedLParenAfterIf s
    if !r1.1 then some r1.2 else
    match parseExpression ts f r1.2 with
    | none => none
    | some s2 =>
      let r3 := expectTok ts .RPAREN .expectedRParenAfterCondition s2
      if !r3.1 then some r3.2 else
      let r4 := expectTok ts .LBRACE .expectedLBraceForIfBody r3.2
      if !r4.1 then some r4.2 else
      match parseBlock ts f r4.2 with
      | none => none
      | some s5 =>
        let r6 := expectTok ts .RBRACE .expectedRBraceToEndIfBody s5
        if !r6.1 then some r6.2 else
        if (currentToken ts r6.2).type = .ELSE then
          let s7 := nextTokenP r6.2
          let r8 := expectTok ts .LBRACE .expectedLBraceForElseBody s7
          if !r8.1 then some r8.2 else
          match parseBlock ts f r8.2 with
          | none => none
          | some s9 =>
            let r10 := expectTok ts .RBRACE .expectedRBraceToEndElseBody s9
            some r10.2
        else some r6.2

/-- SyntaxAnalyzer._parse_while_statement. -/
def parseWhileStatement (ts : List Token) : Nat → PState → Option PState
  | 0, _ => none
  | f + 1, s =>
    let s := nextTokenP s
    let r1 := expectTok ts .LPAREN .expectedLParenAfterWhile s
    if !r1.1 then some r1.2 else
    match parseExpression ts f r1.2 with
    | none => none
    | some s2 =>
      let r3 := expectTok ts .RPAREN .expectedRParenAfterCondition s2
      if !r3.1 then some r3.2 else
      let r4 := expectTok ts .LBRACE .expectedLBraceForWhileBody r3.2
      if !r4.1 then some r4.2 else
      match parseBlock ts f r4.2 with
      | none => none
      | some s5 =>
        let r6 := expectTok ts .RBRACE .expectedRBraceToEndWhileBody s5
        some r6.2

/-- SyntaxAnalyzer._parse_for_statement. -/
def parseForStatement (ts : List Token) : Nat → PState → Option PState
  | 0, _ => none
  | f + 1, s =>
    let s := nextTokenP s
    let r1 := expectTok ts .LPAREN .expectedLParenAfterFor s
    if !r1.1 then some r1.2 else
    match parseStatement ts f r1.2 with
    | none => none
    | some s2 =>
      match parseExpression ts f s2 with
      | none => none
      | some s3 =>
        let r4 := expectTok ts .SEMICOLON .expectedSemicolonAfterForCondition s3
        if !r4.1 then some r4.2 else
        match parseExpression ts f r4.2 with
        | none => none
        | some s5 =>
          let r6 := expectTok ts .RPAREN .expectedRParenAfterForIncrement s5
          if !r6.1 then some r6.2 else
          let r7 := expectTok ts .LBRACE .expectedLBraceForForBody r6.2
          if !r7.1 then some r7.2 else
          match parseBlock ts f r7.2 with
          | none => none
          | some s8 =>
            let r9 := expectTok ts .RBRACE .expectedRBraceToEndForBody s8
            some r9.2

/-- SyntaxAnalyzer._parse_return_statement. -/
def parseReturnStatement (ts : List Token) : Nat → PState → Option PState
  | 0, _ => none
  | f + 1, s =>
    let s := nextTokenP s
    if (currentToken ts s).type ≠ .SEMICOLON then
      match parseExpression ts f s with
      | none => none
      | some s1 =>
        let r := expectTok ts .SEMICOLON .expectedSemicolonAfterReturn s1
        some r.2
    else
      let r := expectTok ts .SEMICOLON .expectedSemicolonAfterReturn s
      some r.2

/-- SyntaxAnalyzer._parse_variable_declaration. -/
def parseVariableDeclaration (ts : List Token) : Nat → PState → Option PState
  | 0, _ => none
  | f + 1, s =>
    let s := nextTokenP s
    let r1 := expectTok ts .IDENTIFIER .expectedVariableName s
    if !r1.1 then some r1.2 else
    if (currentToken ts r1.2).type = .ASSIGN then
      let s2 := nextTokenP r1.2
      match parseExpression ts f s2 with
      | none => none
      | some s3 =>
        let r4 := expectTok ts .SEMICOLON .expectedSemicolonAfterVariableDeclaration s3
        some r4.2
    else
      let r4 := expectTok ts .SEMICOLON .expectedSemicolonAfterVariableDeclaration r1.2
      some r4.2

/-- SyntaxAnalyzer._parse_assignment_or_function_call. -/
def parseAssignmentOrFunctionCall (ts : List Token) : Nat → PState → Option PState
  | 0, _ => none
  | f + 1, s =>
    let s := nextTokenP s
    if (currentToken ts s).type = .LPAREN then
      let s1 := nextTokenP s
      match parseArgumentList ts f s1 with
      | none => none
      | some s2 =>
        let r3 := expectTok ts .RPAREN .expectedRParenAfterFunctionArguments s2
        if !r3.1 then some r3.2 else
        let r4 := expectTok ts .SEMICOLON .expectedSemicolonAfterFunctionCall r3.2
        some r4.2
    else
      let r1 := expectTok ts .ASSIGN .expectedAssignForAssignment s
      if !r1.1 then some r1.2 else
      match parseExpression ts f r1.2 with
      | none => none
      | some s2 =>
        let r3 := expectTok ts .SEMICOLON .expectedSemicolonAfterAssignment s2
        some r3.2

/-- SyntaxAnalyzer._parse_argument_list (early return on an immediate
closing parenthesis, then the item loop). -/
def parseArgumentList (ts : List Token) : Nat → PState → Option PState
  | 0, _ => none
  | f + 1, s =>
    if (currentToken ts s).type = .RPAREN then some s
    else parseArgItems ts f s

/-- The while-True item loop of _parse_argument_list. -/
def parseArgItems (ts : List Token) : Nat → PState → Option PState
  | 0, _ => none
  | f + 1, s =>
    match parseExpression ts f s with
    | none => none
    | some s1 =>
      if (currentToken ts s1).type = .COMMA then
        parseArgItems ts f (nextTokenP s1)
      else some s1

/-- SyntaxAnalyzer._parse_expression: a term, then the additive
operator loop. -/
def parseExpression (ts : List Token) : Nat → PState → Option PState
  | 0, _ => none
  | f + 1, s =>
    match parseTerm ts f s with
    | none => none
    | some s1 => parseExprOps ts f s1

/-- The additive operator loop of _parse_expression. -/
def parseExprOps (ts : List Token) : Nat → PState → Option PState
  | 0, _ => none
  | f + 1, s =>
    if (currentToken ts s).type = .PLUS || (currentToken ts s).type = .MINUS then
      match parseTerm ts f (nextTokenP s) with
      | none => none
      | some s1 => parseExprOps ts f s1
    else some s

/-- SyntaxAnalyzer._parse_term: a factor, then the multiplicative
operator loop. -/
def parseTerm (ts : List Token) : Nat → PState → Option PState
  | 0, _ => none
  | f + 1, s =>
    match parseFactor ts f s with
    | none => none
    | some s1 => parseTermOps ts f s1

/-- The multiplicative operator loop of _parse_term. -/
def parseTermOps (ts : List Token) : Nat → PState → Option PState
  | 0, _ => none
  | f + 1, s =>
    if (currentToken ts s).type = .MULTIPLY || (currentToken ts s).type = .DIVIDE then
      match parseFactor ts f (nextTokenP s) with
      | none => none
      | some s1 => parseTermOps ts f s1
    else some s

/-- SyntaxAnalyzer._parse_factor. -/
def parseFactor (ts : List Token) : Nat → PState → Option PState
  | 0, _ => none
  | f + 1, s =>
    match (currentToken ts s).type with
    | .IDENTIFIER =>
      let s1 := nextTokenP s
      if (currentToken ts s1).type = .LPAREN then
        let s2 := nextTokenP s1
        match parseArgumentList ts f s2 with
        | none => none
        | some s3 =>
          let r4 := expectTok ts .RPAREN .expectedRParenAfterFunctionArguments s3
          some r4.2
      else some s1
    | .INTEGER | .FLOAT_LITERAL | .CHAR_LITERAL => some (nextTokenP s)
    | .LPAREN =>
      let s1 := nextTokenP s
      match parseExpression ts f s1 with
      | none => none
      | some s2 =>
        let r3 := expectTok ts .RPAREN .expectedRParenAfterExpression s2
        some r3.2
    | _ => some (nextTokenP (pushSynErr ts s .invalidExpression))

end

/-- SyntaxAnalyzer().analyze(tokens): run _parse_program from a fresh
state and return the recorded errors; none means the given fuel did
not finish.  The Python try/except around _parse_program can only
trigger on an empty token list (tokens[-1] raising), which no claim
exercises, so it is not modelled. -/
def analyzeFuel (ts : List Token) (fuel : Nat) : Option (List SynErr) :=
  (parseProgram ts fuel ⟨[], 0⟩).map PState.errors

/-- SyntaxAnalyzer().analyze(tokens) terminates on the given token
list: some fuel suffices. -/
def analyzeTerminates (ts : List Token) : Prop :=
  ∃ fuel, (analyzeFuel ts fuel).isSome

/-! ## Type checker (src/semantic/type_checker.py)

TypeChecker.__init__ builds basic_types, a dict with exactly the four
keys int, char, float, void, each holding one mutable Type object.
_check_function_declaration and _check_variable_declaration fetch
these objects by key and _check_variable_declaration mutates the
fetched object in place (var_type.is_array = ..., var_type.array_size
= ...), so every Variable, Function return type and parameter of a
given base ALIASES the one shared object.  The embedding makes the
aliasing explicit: stored types are the dict key (BaseKey), and the
current contents of the four objects live in the checker state
(Basics).  A Type object name field is assigned only in __init__, to
its own dict key, and no code path ever writes it, so the embedding
derives the name from the key (baseName); is_pointer is likewise never
written after __init__ and never read, but is kept as data. -/

inductive BaseKey where
  | int | char | float | void
  deriving DecidableEq, Repr

/-- The mutable part of one Type object (is_array, array_size,
is_pointer); the name is derived from the dict key via baseName. -/
structure TyM where
  is_array : Bool
  array_size : Option Int
  is_pointer : Bool
  deriving DecidableEq, Repr

def baseName : BaseKey → String
  | .int => "int"
  | .char => "char"
  | .float => "float"
  | .void => "void"

/-- Contents of the four Type objects held by basic_types. -/
structure Basics where
  tInt : TyM
  tChar : TyM
  tFloat : TyM
  tVoid : TyM
  deriving DecidableEq, Repr

def getB (b : Basics) : BaseKey → TyM
  | .int => b.tInt
  | .char => b.tChar
  | .float => b.tFloat
  | .void => b.tVoid

def setB (b : Basics) : BaseKey → TyM → Basics
  | .int, v => { b with tInt := v }
  | .char, v => { b with tChar := v }
  | .float, v => { b with tFloat := v }
  | .void, v => { b with tVoid := v }

/-- Key lookup self.basic_types[v]: none is a Python KeyError. -/
def keyOf (v : String) : Option BaseKey :=
  if v = "int" then some .int
  else if v = "char" then some .char
  else if v = "float" then some .float
  else if v = "void" then some .void
  else none

/-- A Variable record; the type field is the aliased basic-types key. -/
structure VarR where
  name : String
  base : BaseKey
  is_initialized : Bool
  scope_level : Nat
  deriving DecidableEq, Repr

/-- A Function record; return type and parameter types are aliased
basic-types keys. -/
structure FuncR where
  name : String
  return_base : BaseKey
  parameters : List VarR
  is_defined : Bool
  deriving DecidableEq, Repr

/-- One constructor per distinct SemanticError message format string
of TypeChecker. -/
inductive SemMsg where
  | functionAlreadyDeclared (f : String)
  | variableAlreadyDeclaredInScope (v : String)
  | functionNotDeclared (f : String)
  | tooManyArguments (f : String)
  | tooFewArguments (f : String)
  | variableNotDeclared (v : String)
  | notAnArray (v : String)
  | typeMismatch (expected : String) (got : String)
  deriving DecidableEq, Repr

structure SemErr where
  line : Int
  column : Int
  message : SemMsg
  severity : Sev
  deriving DecidableEq, Repr

structure TCState where
  errors : List SemErr
  vars : List (String × VarR)
  functions : List (String × FuncR)
  scope : Nat
  basics : Basics
  deriving DecidableEq, Repr

/-- Dict lookup on an association list. -/
def lookupA {α : Type} : List (String × α) → String → Option α
  | [], _ => none
  | (k, v) :: rest, n => if k = n then some v else lookupA rest n

/-- Dict insert-or-overwrite on an association list. -/
def insertA {α : Type} : List (String × α) → String → α → List (String × α)
  | [], n, v => [(n, v)]
  | (k, w) :: rest, n, v =>
    if k = n then (n, v) :: rest else (k, w) :: insertA rest n v

/-- The uncaught Python exceptions check_types can raise: IndexError
from tokens[i] past the end, KeyError from basic_types[v] on an
unknown key, ValueError from int(v) on a non-numeric string. -/
inductive TCCrash where
  | indexError
  | keyError (v : String)
  | valueError (v : String)
  deriving DecidableEq, Repr

/-- Result of a checker step: normal value, uncaught exception, or
fuel exhausted. -/
inductive Res (α : Type) where
  | ok (a : α)
  | crash (c : TCCrash)
  | fuelOut
  deriving DecidableEq, Repr

/-- tokens[i] with IndexError. -/
def getTok (ts : List Token) (i : Nat) : Res Token :=
  if h : i < ts.length then .ok (ts.get ⟨i, h⟩) else .crash .indexError

/-- basic_types[v] with KeyError. -/
def basicKey (v : String) : Res BaseKey :=
  match keyOf v with
  | some k => .ok k
  | none => .crash (.keyError v)

/-- Decimal digit accumulator for pyInt. -/
def digitsAcc : List Char → Nat → Option Nat
  | [], acc => some acc
  | c :: r, acc =>
    if isDigitChar c then digitsAcc r (acc * 10 + (c.toNat - 48)) else none

/-- Python int(v) on the strings that can reach it here (an optional
minus sign then decimal digits; INTEGER token texts are always plain
digit runs).  none is a ValueError. -/
def pyIntParse (v : String) : Option Int :=
  match v.toList with
  | [] => none
  | '-' :: cs =>
    match cs with
    | [] => none
    | _ => (digitsAcc cs 0).map fun n => -(n : Int)
  | cs => (digitsAcc cs 0).map fun n => (n : Int)

/-- int(v) with ValueError. -/
def pyInt (v : String) : Res Int :=
  match pyIntParse v with
  | some n => .ok n
  | none => .crash (.valueError v)

/-- Append a SemanticError positioned at the given token. -/
def pushSemErr (s : TCState) (t : Token) (m : SemMsg) : TCState :=
  { s with errors := s.errors ++ [⟨t.line, t.column, m, .error⟩] }

/-- The Python bounds-guarded look at a token type: i < len(tokens)
and tokens[i].type == tt. -/
def typeAtIs (ts : List Token) (i : Nat) (tt : TokenType) : Bool :=
  match ts.get? i with
  | some u => u.type = tt
  | none => false

/-- The Python guard i + 1 < len(tokens) and tokens[i + 1].type ==
LPAREN. -/
def nextIsLParen (ts : List Token) (i : Nat) : Bool :=
  typeAtIs ts (i + 1) .LPAREN

mutual


/-- TypeChecker._check_function_declaration. -/
def checkFunctionDeclaration (ts : List Token) (fuel : Nat) (start : Nat) (s : TCState) :
    Res (Nat × TCState) :=
  match fuel with
  | 0 => .fuelOut
  | f + 1 =>
    match getTok ts start with
    | .crash c => .crash c
    | .fuelOut => .fuelOut
    | .ok t0 =>
      match basicKey t0.value with
      | .crash c => .crash c
      | .fuelOut => .fuelOut
      | .ok rk =>
        match getTok ts (start + 1) with
        | .crash c => .crash c
        | .fuelOut => .fuelOut
        | .ok t1 =>
          let fname := t1.value
          let s :=
            if (lookupA s.functions fname).isSome then
              pushSemErr s t0 (.functionAlreadyDeclared fname)
            else s
          match paramScan ts f (start + 3) [] s with
          | .crash c => .crash c
          | .fuelOut => .fuelOut
          | .ok (i, params) =>
            let s := { s with functions := insertA s.functions fname ⟨fname, rk, params, false⟩ }
            let s := { s with scope := s.scope + 1 }
            match bodyScan ts f (i + 2) s with
            | .crash c => .crash c
            | .fuelOut => .fuelOut
            | .ok (i2, s2) => .ok (i2, { s2 with scope := s2.scope - 1 })


/-- The parameter scan loop of _check_function_declaration (while
tokens[i].type != RPAREN); the comma case and the default case both
just advance one token, as in the Python. -/
def paramScan (ts : List Token) (fuel : Nat) (i : Nat) (acc : List VarR) (s : TCState) :
    Res (Nat × List VarR) :=
  match fuel with
  | 0 => .fuelOut
  | f + 1 =>
    match getTok ts i with
    | .crash c => .crash c
    | .fuelOut => .fuelOut
    | .ok t =>
      if t.type = .RPAREN then .ok (i, acc)
      else if isParamType t.type then
        match basicKey t.value with
        | .crash c => .crash c
        | .fuelOut => .fuelOut
        | .ok k =>
          match getTok ts (i + 1) with
          | .crash c => .crash c
          | .fuelOut => .fuelOut
          | .ok t1 =>
            paramScan ts f (i + 2) (acc ++ [⟨t1.value, k, true, s.scope⟩]) s
      else paramScan ts f (i + 1) acc s

termination_by structural fuel

/-- The function body scan loop of _check_function_declaration (while
tokens[i].type != RBRACE). -/
def bodyScan (ts : List Token) (fuel : Nat) (i : Nat) (s : TCState) :
    Res (Nat × TCState) :=
  match fuel with
  | 0 => .fuelOut
  | f + 1 =>
    match getTok ts i with
    | .crash c => .crash c
    | .fuelOut => .fuelOut
    | .ok t =>
      if t.type = .RBRACE then .ok (i, s)
      else if isParamType t.type then
        match checkVariableDeclaration ts f i s with
        | .crash c => .crash c
        | .fuelOut => .fuelOut
        | .ok (i1, s1) => bodyScan ts f (i1 + 1) s1
      else if t.type = .IDENTIFIER then
        if nextIsLParen ts i then
          match checkFunctionCall ts f i s with
          | .crash c => .crash c
          | .fuelOut => .fuelOut
          | .ok (i1, s1) => bodyScan ts f (i1 + 1) s1
        else
          match checkVariableUsage ts f i s with
          | .crash c => .crash c
          | .fuelOut => .fuelOut
          | .ok (i1, s1) => bodyScan ts f (i1 + 1) s1
      else bodyScan ts f (i + 1) s

termination_by structural fuel

/-- TypeChecker._check_variable_declaration.  The in-place mutation of
the fetched Type object (var_type.is_array = ..., var_type.array_size
= ...) happens after the initializer expression is checked, exactly as
in the source, and is a write through the basic-types key. -/
def checkVariableDeclaration (ts : List Token) (fuel : Nat) (start : Nat) (s : TCState) :
    Res (Nat × TCState) :=
  match fuel with
  | 0 => .fuelOut
  | f + 1 =>
    match getTok ts start with
    | .crash c => .crash c
    | .fuelOut => .fuelOut
    | .ok t0 =>
      match basicKey t0.value with
      | .crash c => .crash c
      | .fuelOut => .fuelOut
      | .ok k =>
        match getTok ts (start + 1) with
        | .crash c => .crash c
        | .fuelOut => .fuelOut
        | .ok t1 =>
          let vname := t1.value
          let s :=
            match lookupA s.vars vname with
            | some v =>
              if v.scope_level = s.scope then
                pushSemErr s t0 (.variableAlreadyDeclaredInScope vname)
              else s
            | none => s
          let arrRes : Res (Nat × Bool × Option Int) :=
            match ts.get? (start + 2) with
            | some tb =>
              if tb.type = .LBRACKET then
                match getTok ts (start + 3) with
                | .crash c => .crash c
                | .fuelOut => .fuelOut
                | .ok tsz =>
                  if tsz.type = .INTEGER then
                    match pyInt tsz.value with
                    | .crash c => .crash c
                    | .fuelOut => .fuelOut
                    | .ok n => .ok (start + 5, true, some n)
                  else .ok (start + 5, true, none)
              else .ok (start + 2, false, none)
            | none => .ok (start + 2, false, none)
          match arrRes with
          | .crash c => .crash c
          | .fuelOut => .fuelOut
          | .ok (i, isArr, sz) =>
            let initRes : Res (Nat × Bool × TCState) :=
              match ts.get? i with
              | some ta =>
                if ta.type = .ASSIGN then
                  match checkExpression ts f (i + 1) k s with
                  | .crash c => .crash c
                  | .fuelOut => .fuelOut
                  | .ok (i2, s2) => .ok (i2, true, s2)
                else .ok (i, false, s)
              | none => .ok (i, false, s)
            match initRes with
            | .crash c => .crash c
            | .fuelOut => .fuelOut
            | .ok (i3, isInit, s3) =>
              let oldT := getB s3.basics k
              let s4 := { s3 with basics := setB s3.basics k { oldT with is_array := isArr, array_size := sz } }
              let s5 := { s4 with vars := insertA s4.vars vname ⟨vname, k, isInit, s4.scope⟩ }
              .ok (i3, s5)


/-- TypeChecker._check_function_call. -/
def checkFunctionCall (ts : List Token) (fuel : Nat) (start : Nat) (s : TCState) :
    Res (Nat × TCState) :=
  match fuel with
  | 0 => .fuelOut
  | f + 1 =>
    match getTok ts start with
    | .crash c => .crash c
    | .fuelOut => .fuelOut
    | .ok t0 =>
      let fname := t0.value
      match lookupA s.functions fname with
      | none => .ok (start + 1, pushSemErr s t0 (.functionNotDeclared fname))
      | some func =>
        match argScan ts f (start + 2) 0 func s with
        | .crash c => .crash c
        | .fuelOut => .fuelOut
        | .ok (i, pidx, s1) =>
          let s2 :=
            if pidx < func.parameters.length then
              pushSemErr s1 t0 (.tooFewArguments fname)
            else s1
          .ok (i + 1, s2)

termination_by structural fuel

/-- The argument scan loop of _check_function_call (while
tokens[i].type != RPAREN, breaking with a too-many-arguments
diagnostic once param_index passes the signature). -/
def argScan (ts : List Token) (fuel : Nat) (i : Nat) (pidx : Nat) (func : FuncR)
    (s : TCState) : Res (Nat × Nat × TCState) :=
  match fuel with
  | 0 => .fuelOut
  | f + 1 =>
    match getTok ts i with
    | .crash c => .crash c
    | .fuelOut => .fuelOut
    | .ok t =>
      if t.type = .RPAREN then .ok (i, pidx, s)
      else
        if h : pidx < func.parameters.length then
          match checkExpression ts f i (func.parameters.get ⟨pidx, h⟩).base s with
          | .crash c => .crash c
          | .fuelOut => .fuelOut
          | .ok (i1, s1) =>
            match getTok ts i1 with
            | .crash c => .crash c
            | .fuelOut => .fuelOut
            | .ok t1 =>
              argScan ts f (if t1.type = .COMMA then i1 + 1 else i1) (pidx + 1) func s1
        else .ok (i, pidx, pushSemErr s t (.tooManyArguments func.name))

termination_by structural fuel

/-- TypeChecker._check_variable_usage.  The final is_initialized
assignment mutates the Variable object stored in the dict. -/
def checkVariableUsage (ts : List Token) (fuel : Nat) (start : Nat) (s : TCState) :
    Res (Nat × TCState) :=
  match fuel with
  | 0 => .fuelOut
  | f + 1 =>
    match getTok ts start with
    | .crash c => .crash c
    | .fuelOut => .fuelOut
    | .ok t0 =>
      let vname := t0.value
      match lookupA s.vars vname with
      | none => .ok (start + 1, pushSemErr s t0 (.variableNotDeclared vname))
      | some var =>
        let arrRes : Res (Nat × TCState) :=
          match ts.get? (start + 1) with
          | some tb =>
            if tb.type = .LBRACKET then
              let s1 :=
                if (getB s.basics var.base).is_array then s
                else pushSemErr s tb (.notAnArray vname)
              match checkExpression ts f (start + 2) .int s1 with
              | .crash c => .crash c
              | .fuelOut => .fuelOut
              | .ok (i2, s2) => .ok (i2 + 1, s2)
            else .ok (start + 1, s)
          | none => .ok (start + 1, s)
        match arrRes with
        | .crash c => .crash c
        | .fuelOut => .fuelOut
        | .ok (i, s1) =>
          match ts.get? i with
          | some ta =>
            if ta.type = .ASSIGN then
              match checkExpression ts f (i + 1) var.base s1 with
              | .crash c => .crash c
              | .fuelOut => .fuelOut
              | .ok (i2, s2) =>
                .ok (i2, { s2 with vars := insertA s2.vars vname { var with is_initialized := true } })
            else .ok (i, s1)
          | none => .ok (i, s1)

termination_by structural fuel

/-- TypeChecker._check_expression.  expected is the aliased
basic-types key of the expected Type object; only its name is ever
read, through baseName. -/
def checkExpression (ts : List Token) (fuel : Nat) (start : Nat) (ek : BaseKey)
    (s : TCState) : Res (Nat × TCState) :=
  match fuel with
  | 0 => .fuelOut
  | f + 1 =>
    match getTok ts start with
    | .crash c => .crash c
    | .fuelOut => .fuelOut
    | .ok t =>
      let firstRes : Res (Nat × TCState) :=
        match t.type with
        | .IDENTIFIER =>
          if nextIsLParen ts start then checkFunctionCall ts f start s
          else checkVariableUsage ts f start s
        | .INTEGER =>
          .ok (start + 1,
            if baseName ek ≠ "int" then
              pushSemErr s t (.typeMismatch (baseName ek) "int")
            else s)
        | .FLOAT_LITERAL =>
          .ok (start + 1,
            if baseName ek ≠ "float" then
              pushSemErr s t (.typeMismatch (baseName ek) "float")
            else s)
        | .CHAR_LITERAL =>
          .ok (start + 1,
            if baseName ek ≠ "char" then
              pushSemErr s t (.typeMismatch (baseName ek) "char")
            else s)
        | .LPAREN =>
          match checkExpression ts f (start + 1) ek s with
          | .crash c => .crash c
          | .fuelOut => .fuelOut
          | .ok (i1, s1) => .ok (i1 + 1, s1)
        | _ => .ok (start, s)
      match firstRes with
      | .crash c => .crash c
      | .fuelOut => .fuelOut
      | .ok (i, s1) => exprOpScan ts f i ek s1

termination_by structural fuel

/-- The trailing operator loop of _check_expression (while i < len
and tokens[i] is an arithmetic operator). -/
def exprOpScan (ts : List Token) (fuel : Nat) (i : Nat) (ek : BaseKey) (s : TCState) :
    Res (Nat × TCState) :=
  match fuel with
  | 0 => .fuelOut
  | f + 1 =>
    match ts.get? i with
    | some t =>
      if isArithOp t.type then
        match checkExpression ts f (i + 1) ek s with
        | .crash c => .crash c
        | .fuelOut => .fuelOut
        | .ok (i2, s2) => exprOpScan ts f i2 ek s2
      else .ok (i, s)
    | none => .ok (i, s)

termination_by structural fuel

/-- The main dispatch loop of TypeChecker.check_types. -/
def checkTypesLoop (ts : List Token) (fuel : Nat) (i : Nat) (s : TCState) :
    Res TCState :=
  match fuel with
  | 0 => .fuelOut
  | f + 1 =>
    if h : i < ts.length then
      let t := ts.get ⟨i, h⟩
      if isTypeStart t.type then
        if typeAtIs ts (i + 2) .LPAREN then
          match checkFunctionDeclaration ts f i s with
          | .crash c => .crash c
          | .fuelOut => .fuelOut
          | .ok (i1, s1) => checkTypesLoop ts f (i1 + 1) s1
        else
          match checkVariableDeclaration ts f i s with
          | .crash c => .crash c
          | .fuelOut => .fuelOut
          | .ok (i1, s1) => checkTypesLoop ts f (i1 + 1) s1
      else if t.type = .IDENTIFIER then
        if nextIsLParen ts i then
          match checkFunctionCall ts f i s with
          | .crash c => .crash c
          | .fuelOut => .fuelOut
          | .ok (i1, s1) => checkTypesLoop ts f (i1 + 1) s1
        else
          match checkVariableUsage ts f i s with
          | .crash c => .crash c
          | .fuelOut => .fuelOut
          | .ok (i1, s1) => checkTypesLoop ts f (i1 + 1) s1
      else checkTypesLoop ts f (i + 1) s
    else .ok s
termination_by structural fuel

end

/-- TypeChecker.check_types(tokens) run on an existing analyzer
state: errors, variables, functions and the scope counter are reset,
but the four basic-types objects keep whatever contents earlier runs
left in them, exactly as in the source. -/
def checkTypesFull (ts : List Token) (fuel : Nat) (s : TCState) : Res TCState :=
  checkTypesLoop ts fuel 0
    { s with errors := [], vars := [], functions := [], scope := 0 }

/-- The state of a freshly constructed TypeChecker(). -/
def initTC : TCState :=
  ⟨[], [], [], 0,
    ⟨⟨false, none, false⟩, ⟨false, none, false⟩,
     ⟨false, none, false⟩, ⟨false, none, false⟩⟩⟩

/-- Project a finished run to the diagnostic list the caller
receives. -/
def resErrors : Res TCState → Res (List SemErr)
  | .ok u => .ok u.errors
  | .crash c => .crash c
  | .fuelOut => .fuelOut

/-! Relations used to prove that diagnostics do not depend on the
contents the basic-types objects carry over from earlier runs: two
basics tables agree wherever a declared variable can read them
(is_array is the only field the checker ever reads back). -/

def VAgree (vr : List (String × VarR)) (b1 b2 : Basics) : Prop :=
  ∀ p ∈ vr, (getB b1 p.2.base).is_array = (getB b2 p.2.base).is_array

/-- Lock-step relation on checker step results: same index, same
diagnostics, same variables, functions and scope, and agreeing basics
at every declared variable. -/
def RelS : Res (Nat × TCState) → Res (Nat × TCState) → Prop
  | .ok (i, u), .ok (j, v) =>
    i = j ∧ u.errors = v.errors ∧ u.vars = v.vars ∧ u.functions = v.functions ∧
      u.scope = v.scope ∧ VAgree u.vars u.basics v.basics
  | .crash c, .crash d => c = d
  | .fuelOut, .fuelOut => True
  | _, _ => False

/-- RelS for the argument-scan results, which also carry the argument
index. -/
def RelA : Res (Nat × Nat × TCState) → Res (Nat × Nat × TCState) → Prop
  | .ok (i, p, u), .ok (j, q, v) =>
    i = j ∧ p = q ∧ u.errors = v.errors ∧ u.vars = v.vars ∧
      u.functions = v.functions ∧ u.scope = v.scope ∧ VAgree u.vars u.basics v.basics
  | .crash c, .crash d => c = d
  | .fuelOut, .fuelOut => True
  | _, _ => False

/-- RelS for whole-run results. -/
def RelT : Res TCState → Res TCState → Prop
  | .ok u, .ok v =>
    u.errors = v.errors ∧ u.vars = v.vars ∧ u.functions = v.functions ∧
      u.scope = v.scope ∧ VAgree u.vars u.basics v.basics
  | .crash c, .crash d => c = d
  | .fuelOut, .fuelOut => True
  | _, _ => False

/-- RelA for the array/initializer scan results of
_check_variable_declaration, which carry a Bool. -/
def RelB : Res (Nat × Bool × TCState) → Res (Nat × Bool × TCState) → Prop
  | .ok (i, p, u), .ok (j, q, v) =>
    i = j ∧ p = q ∧ u.errors = v.errors ∧ u.vars = v.vars ∧
      u.functions = v.functions ∧ u.scope = v.scope ∧ VAgree u.vars u.basics v.basics
  | .crash c, .crash d => c = d
  | .fuelOut, .fuelOut => True
  | _, _ => False

/-- The type descriptor currently recorded for a declared name: the
contents of the basic-types object its Variable aliases. -/
def recordedTy (s : TCState) (n : String) : Option TyM :=
  (lookupA s.vars n).map fun v => getB s.basics v.base

/-- End-to-end helper for concrete runs: the recorded type descriptor
of name n after tokenizing and checking src. -/
def recordedAfter (src : String) (n : String) : Option TyM :=
  match tokenize src with
  | some (.ok ts) =>
    match checkTypesFull ts 1000 initTC with
    | .ok s => recordedTy s n
    | _ => none
  | _ => none

/-! ## Symbol table (src/semantic/symbol_table.py)

The scope stack self.scopes keeps the innermost frame LAST in Python
(scopes[-1] is current, reversed(scopes[:-1]) are the outer frames);
here the list keeps the innermost frame FIRST, so push/pop are list
cons/tail and lookup is the first frame containing the name -- the
same search order.  Symbol.type is plain data here (the full Type
record with its name). -/

structure STy where
  name : String
  is_array : Bool
  array_size : Option Int
  is_pointer : Bool
  deriving DecidableEq, Repr

structure Symbol where
  name : String
  ty : STy
  kind : String
  scope_level : Nat
  is_initialized : Bool
  is_defined : Bool
  deriving DecidableEq, Repr

structure SymbolTable where
  symbols : List (String × Symbol)
  scope_level : Nat
  scopes : List (List (String × Symbol))
  deriving DecidableEq, Repr

/-- SymbolTable(): one empty global frame at depth 0. -/
def initSymTab : SymbolTable :=
  ⟨[], 0, [[]]⟩

/-- SymbolTable.enter_scope. -/
def enterScope (st : SymbolTable) : SymbolTable :=
  { st with scope_level := st.scope_level + 1, scopes := [] :: st.scopes }

/-- SymbolTable.exit_scope (guarded at depth 0). -/
def exitScope (st : SymbolTable) : SymbolTable :=
  if 0 < st.scope_level then
    { st with scope_level := st.scope_level - 1, scopes := st.scopes.tail }
  else st

/-- SymbolTable.add_symbol: refuse a duplicate in the innermost frame,
otherwise record the symbol there and in the flat symbols dict.  The
empty-scopes case cannot arise from initSymTab (exit_scope is
guarded); Python would raise there. -/
def addSymbol (st : SymbolTable) (sym : Symbol) : Bool × SymbolTable :=
  match st.scopes with
  | fr :: rest =>
    if (lookupA fr sym.name).isSome then (false, st)
    else
      (true,
        { st with
            scopes := insertA fr sym.name sym :: rest,
            symbols := insertA st.symbols sym.name sym })
  | [] => (false, st)

/-- SymbolTable.lookup: innermost frame first, then outward. -/
def lookupScopes : List (List (String × Symbol)) → String → Option Symbol
  | [], _ => none
  | fr :: rest, n =>
    match lookupA fr n with
    | some s => some s
    | none => lookupScopes rest n

def lookupSym (st : SymbolTable) (n : String) : Option Symbol :=
  lookupScopes st.scopes n

/-! ## Concrete token sequences used by the end-to-end scenarios.
Each is proved equal to the tokenizer output on its source text in the
theorems below. -/

/-- Tokens of a small well-formed declaration, used as a concrete
witness input. -/
def c1Toks : List Token :=
  [⟨.INT, "int", 1, 1⟩, ⟨.IDENTIFIER, "x", 1, 5⟩, ⟨.SEMICOLON, ";", 1, 6⟩,
   ⟨.EOF, "", 1, 7⟩]

/-- Tokens of the source text of scenario 1 of the spec. -/
def c3Toks : List Token :=
  [⟨.INT, "int", 1, 1⟩, ⟨.IDENTIFIER, "main", 1, 5⟩, ⟨.LPAREN, "(", 1, 9⟩,
   ⟨.RPAREN, ")", 1, 10⟩, ⟨.LBRACE, "\x7b", 1, 12⟩, ⟨.RETURN, "return", 1, 14⟩,
   ⟨.INTEGER, "0", 1, 21⟩, ⟨.SEMICOLON, ";", 1, 22⟩, ⟨.RBRACE, "\x7d", 1, 24⟩,
   ⟨.EOF, "", 1, 25⟩]

/-- Tokens of the source text of scenario 2 of the spec. -/
def c4Toks : List Token :=
  [⟨.INT, "int", 1, 1⟩, ⟨.IDENTIFIER, "x", 1, 5⟩, ⟨.ASSIGN, "=", 1, 7⟩,
   ⟨.INTEGER, "5", 1, 9⟩, ⟨.EOF, "", 1, 10⟩]

/-- Tokens of a function header with an unclosed body brace. -/
def c2Toks : List Token :=
  [⟨.INT, "int", 1, 1⟩, ⟨.IDENTIFIER, "main", 1, 5⟩, ⟨.LPAREN, "(", 1, 9⟩,
   ⟨.RPAREN, ")", 1, 10⟩, ⟨.LBRACE, "\x7b", 1, 12⟩, ⟨.EOF, "", 1, 13⟩]

/-- Tokens of a function header truncated before its parameter list
is closed. -/
def c5Toks : List Token :=
  [⟨.INT, "int", 1, 1⟩, ⟨.IDENTIFIER, "f", 1, 5⟩, ⟨.LPAREN, "(", 1, 6⟩,
   ⟨.EOF, "", 1, 7⟩]

/-- A parameterless redeclaration of f: int f ( ) then an empty
body. -/
def declToks : List Token :=
  [⟨.INT, "int", 1, 1⟩, ⟨.IDENTIFIER, "f", 1, 5⟩, ⟨.LPAREN, "(", 1, 6⟩,
   ⟨.RPAREN, ")", 1, 7⟩, ⟨.LBRACE, "\x7b", 1, 9⟩, ⟨.RBRACE, "\x7d", 1, 11⟩,
   ⟨.EOF, "", 1, 12⟩]

/-- A call f(1) with one integer argument. -/
def callToks : List Token :=
  [⟨.IDENTIFIER, "f", 2, 1⟩, ⟨.LPAREN, "(", 2, 2⟩, ⟨.INTEGER, "1", 2, 3⟩,
   ⟨.RPAREN, ")", 2, 4⟩, ⟨.SEMICOLON, ";", 2, 5⟩, ⟨.EOF, "", 2, 6⟩]

/-- The lexical diagnostics of scenario 2, used as a concrete
witness value. -/
def c4LexErrs : List LexicalError :=
  [⟨1, 7, .missingSemicolon, .error⟩, ⟨1, 10, .missingSemicolon, .error⟩]

/-- A one-parameter signature of f, the earlier registration in the
duplicate-declaration witness. -/
def wFunc : FuncR := ⟨"f", .int, [⟨"a", .int, true, 0⟩], false⟩

/-- A checker state in which f is already declared with one int
parameter. -/
def wTCState : TCState := ⟨[], [], [("f", wFunc)], 0, initTC.basics⟩

/-- The state after re-declaring f with no parameters from wTCState. -/
def wS2 : TCState :=
  ⟨[⟨1, 1, .functionAlreadyDeclared "f", .error⟩], [],
   [("f", ⟨"f", .int, [], false⟩)], 0, initTC.basics⟩

/-- The state after additionally checking the call f(1) from wS2. -/
def wS3 : TCState :=
  ⟨[⟨1, 1, .functionAlreadyDeclared "f", .error⟩,
    ⟨2, 3, .tooManyArguments "f", .error⟩], [],
   [("f", ⟨"f", .int, [], false⟩)], 0, initTC.basics⟩

/-- Concrete symbols named x for the scope-discipline witness. -/
def wSym0 : Symbol :=
  ⟨"x", ⟨"int", false, none, false⟩, "variable", 0, false, false⟩

def wSym1 : Symbol :=
  ⟨"x", ⟨"int", false, none, false⟩, "variable", 1, true, false⟩

/-! # Theorems -/


/-- The checker state a full run of check_types on the tokens of
"int x;" leaves behind: x recorded, all basic-types objects still
scalar. -/
def wC8 : TCState :=
  ⟨[], [("x", ⟨"x", .int, false, 0⟩)], [], 0,
    ⟨⟨false, none, false⟩, ⟨false, none, false⟩,
     ⟨false, none, false⟩, ⟨false, none, false⟩⟩⟩

/-! ## Tokenizer: progress and fuel sufficiency -/

theorem skipWhitespaceGo_length_le (r : List Char) :
    ∀ l c, (skipWhitespaceGo r l c).rest.length ≤ r.length := by
  induction r with
  | nil => intro l c; simp [skipWhitespaceGo]
  | cons x xs ih =>
    intro l c
    simp only [skipWhitespaceGo]
    split
    · exact Nat.le_trans (ih _ _) (Nat.le_succ _)
    · simp

theorem lineCommentGo_length_le (r : List Char) :
    ∀ l c, (lineCommentGo r l c).rest.length ≤ r.length := by
  induction r with
  | nil => intro l c; simp [lineCommentGo]
  | cons x xs ih =>
    intro l c
    simp only [lineCommentGo]
    split
    · simp
    · exact Nat.le_trans (ih _ _) (Nat.le_succ _)

theorem blockCommentGo_length_le (r : List Char) :
    ∀ l c, (blockCommentGo r l c).rest.length ≤ r.length := by
  induction r with
  | nil => intro l c; simp [blockCommentGo]
  | cons x xs ih =>
    intro l c
    simp only [blockCommentGo]
    split
    · simp
    · exact Nat.le_trans (ih _ _) (Nat.le_succ _)

theorem identLoopGo_length_le (r : List Char) :
    ∀ l c acc, (identLoopGo r l c acc).2.rest.length ≤ r.length := by
  induction r with
  | nil => intro l c acc; simp [identLoopGo]
  | cons x xs ih =>
    intro l c acc
    simp only [identLoopGo]
    split
    · exact Nat.le_trans (ih _ _ _) (Nat.le_succ _)
    · simp

theorem numberLoopGo_length_le (r : List Char) :
    ∀ l c acc isF, (numberLoopGo r l c acc isF).2.2.rest.length ≤ r.length := by
  induction r with
  | nil => intro l c acc isF; simp [numberLoopGo]
  | cons x xs ih =>
    intro l c acc isF
    simp only [numberLoopGo]
    split
    · split
      · simp
      · exact Nat.le_trans (ih _ _ _ _) (Nat.le_succ _)
    · simp

theorem advance_length_le (st : LexState) :
    (advance st).rest.length ≤ st.rest.length := by
  simp only [advance, List.length_tail]
  omega

theorem skipWhitespace_length_lt (st : LexState) (x : Char) (xs : List Char)
    (hr : st.rest = x :: xs) (hx : isSpaceChar x) :
    (skipWhitespace st).rest.length < st.rest.length := by
  simp only [skipWhitespace, hr, skipWhitespaceGo, hx, if_true]
  exact Nat.lt_succ_of_le (skipWhitespaceGo_length_le _ _ _)

theorem skipComment_length_lt (st : LexState) (x : Char) (xs : List Char)
    (hr : st.rest = x :: xs)
    (hx : x = '/' ∧ (xs.head? = some '/' ∨ xs.head? = some '*')) :
    (skipComment st).rest.length < st.rest.length := by
  obtain ⟨hslash, hpeek⟩ := hx
  subst hslash
  have h1 : (advance (advance st)).rest.length ≤ xs.length := by
    have ha := advance_length_le (advance st)
    have hb : (advance st).rest.length ≤ xs.length := by
      simp [advance, hr, List.length_tail]
    omega
  have h2 := blockCommentGo_length_le (advance (advance st)).rest
    (advance (advance st)).line (advance (advance st)).col
  rcases hpeek with hp | hp
  · have heq : skipComment st = lineCommentGo st.rest st.line st.col := by
      simp [skipComment, hr, hp]
    rw [heq, hr]
    have hslashnl : ('/' : Char) = '\n' ↔ False := by decide
    simp only [lineCommentGo, hslashnl, if_false]
    exact Nat.lt_succ_of_le (lineCommentGo_length_le _ _ _)
  · have hne : xs.head? = some '/' ↔ False := by
      rw [hp]; simp
    have heq : skipComment st =
        (match (blockCommentGo (advance (advance st)).rest
            (advance (advance st)).line (advance (advance st)).col).rest with
         | _ :: _ => advance (advance (blockCommentGo (advance (advance st)).rest
             (advance (advance st)).line (advance (advance st)).col))
         | [] => blockCommentGo (advance (advance st)).rest
             (advance (advance st)).line (advance (advance st)).col) := by
      simp [skipComment, hr, hp, hne]
    rw [heq, hr]
    split
    · have h3 := advance_length_le (advance (blockCommentGo (advance (advance st)).rest
        (advance (advance st)).line (advance (advance st)).col))
      have h4 := advance_length_le (blockCommentGo (advance (advance st)).rest
        (advance (advance st)).line (advance (advance st)).col)
      simp only [List.length_cons]
      omega
    · simp only [List.length_cons]
      omega

theorem identCharOfAlpha (c : Char) (h : (isAlphaChar c || c = '_') = true) :
    isIdentChar c = true := by
  simp only [isIdentChar, isAlnumChar, Bool.or_eq_true] at *
  tauto

theorem getIdentifier_length_lt (st : LexState) (c : Char) (r : List Char)
    (hr : st.rest = c :: r) (hc : isIdentChar c = true) :
    (getIdentifier st).2.rest.length < st.rest.length := by
  simp only [getIdentifier, hr, identLoopGo, hc, if_true, List.length_cons]
  exact Nat.lt_succ_of_le (identLoopGo_length_le _ _ _ _)

theorem getNumber_length_lt (st : LexState) (c : Char) (r : List Char)
    (hr : st.rest = c :: r) (hc : isDigitChar c = true) :
    (getNumber st).2.rest.length < st.rest.length := by
  simp only [getNumber, hr, numberLoopGo, hc, Bool.true_or, if_true,
    Bool.and_false, Bool.false_and, if_false, List.length_cons]
  exact Nat.lt_succ_of_le (numberLoopGo_length_le _ _ _ _ _)

theorem singleTok_length_lt (st : LexState) (tt : TokenType) (v : String)
    (c : Char) (r : List Char) (hr : st.rest = c :: r) :
    (singleTok st tt v).2.rest.length < st.rest.length := by
  simp only [singleTok, advance, hr, List.tail_cons, List.length_cons]
  omega

theorem assignTok_length_lt (st : LexState) (c : Char) (r : List Char)
    (hr : st.rest = c :: r) :
    (assignTok st).2.rest.length < st.rest.length := by
  have h1 : (advance st).rest = r := by simp [advance, hr]
  have h2 := advance_length_le (advance st)
  simp only [assignTok]
  split
  · split
    · simp only [hr, List.length_cons]
      rw [h1] at h2
      omega
    · simp only [hr, h1, List.length_cons]
      omega
  · simp only [hr, h1, List.length_cons]
    omega

theorem dispatchChar_length_lt (st : LexState) (c : Char) (r : List Char)
    (t : Token) (st1 : LexState) (hr : st.rest = c :: r)
    (hd : dispatchChar c st = .ok (t, st1)) :
    st1.rest.length < st.rest.length := by
  unfold dispatchChar at hd
  by_cases h1 : isAlphaChar c || c = '_'
  · simp only [h1, if_true] at hd
    have h2 : st1 = (getIdentifier st).2 := by rw [Except.ok.injEq] at hd; rw [hd]
    rw [h2]
    exact getIdentifier_length_lt st c r hr (identCharOfAlpha c h1)
  · rw [if_neg h1] at hd
    by_cases h2 : isDigitChar c = true
    · simp only [h2, if_true] at hd
      have h3 : st1 = (getNumber st).2 := by rw [Except.ok.injEq] at hd; rw [hd]
      rw [h3]
      exact getNumber_length_lt st c r hr h2
    · rw [if_neg h2] at hd
      by_cases h3 : c = '+'
      · rw [if_pos h3, Except.ok.injEq] at hd
        have hx : st1 = (singleTok st .PLUS "+").2 := by rw [hd]
        rw [hx]; exact singleTok_length_lt st _ _ c r hr
      · rw [if_neg h3] at hd
        by_cases h4 : c = '-'
        · rw [if_pos h4, Except.ok.injEq] at hd
          have hx : st1 = (singleTok st .MINUS "-").2 := by rw [hd]
          rw [hx]; exact singleTok_length_lt st _ _ c r hr
        · rw [if_neg h4] at hd
          by_cases h5 : c = '*'
          · rw [if_pos h5, Except.ok.injEq] at hd
            have hx : st1 = (singleTok st .MULTIPLY "*").2 := by rw [hd]
            rw [hx]; exact singleTok_length_lt st _ _ c r hr
          · rw [if_neg h5] at hd
            by_cases h6 : c = '/'
            · rw [if_pos h6, Except.ok.injEq] at hd
              have hx : st1 = (singleTok st .DIVIDE "/").2 := by rw [hd]
              rw [hx]; exact singleTok_length_lt st _ _ c r hr
            · rw [if_neg h6] at hd
              by_cases h7 : c = '='
              · rw [if_pos h7, Except.ok.injEq] at hd
                have hx : st1 = (assignTok st).2 := by rw [hd]
                rw [hx]; exact assignTok_length_lt st c r hr
              · rw [if_neg h7] at hd
                by_cases h8 : c = ';'
                · rw [if_pos h8, Except.ok.injEq] at hd
                  have hx : st1 = (singleTok st .SEMICOLON ";").2 := by rw [hd]
                  rw [hx]; exact singleTok_length_lt st _ _ c r hr
                · rw [if_neg h8] at hd
                  by_cases h9 : c = ','
                  · rw [if_pos h9, Except.ok.injEq] at hd
                    have hx : st1 = (singleTok st .COMMA ",").2 := by rw [hd]
                    rw [hx]; exact singleTok_length_lt st _ _ c r hr
                  · rw [if_neg h9] at hd
                    by_cases h10 : c = '('
                    · rw [if_pos h10, Except.ok.injEq] at hd
                      have hx : st1 = (singleTok st .LPAREN "(").2 := by rw [hd]
                      rw [hx]; exact singleTok_length_lt st _ _ c r hr
                    · rw [if_neg h10] at hd
                      by_cases h11 : c = ')'
                      · rw [if_pos h11, Except.ok.injEq] at hd
                        have hx : st1 = (singleTok st .RPAREN ")").2 := by rw [hd]
                        rw [hx]; exact singleTok_length_lt st _ _ c r hr
                      · rw [if_neg h11] at hd
                        by_cases h12 : c = '{'
                        · rw [if_pos h12, Except.ok.injEq] at hd
                          have hx : st1 = (singleTok st .LBRACE "\x7b").2 := by rw [hd]
                          rw [hx]; exact singleTok_length_lt st _ _ c r hr
                        · rw [if_neg h12] at hd
                          by_cases h13 : c = '}'
                          · rw [if_pos h13, Except.ok.injEq] at hd
                            have hx : st1 = (singleTok st .RBRACE "\x7d").2 := by rw [hd]
                            rw [hx]; exact singleTok_length_lt st _ _ c r hr
                          · rw [if_neg h13] at hd
                            by_cases h14 : c = '['
                            · rw [if_pos h14, Except.ok.injEq] at hd
                              have hx : st1 = (singleTok st .LBRACKET "[").2 := by rw [hd]
                              rw [hx]; exact singleTok_length_lt st _ _ c r hr
                            · rw [if_neg h14] at hd
                              by_cases h15 : c = ']'
                              · rw [if_pos h15, Except.ok.injEq] at hd
                                have hx : st1 = (singleTok st .RBRACKET "]").2 := by rw [hd]
                                rw [hx]; exact singleTok_length_lt st _ _ c r hr
                              · rw [if_neg h15] at hd
                                exact Except.noConfusion hd

theorem getNextTokenF_progress : ∀ (f : Nat) (st : LexState) (t : Token)
    (st1 : LexState), getNextTokenF f st = some (.ok (t, st1)) →
    t.type = .EOF ∨ st1.rest.length < st.rest.length := by
  intro f
  induction f with
  | zero => intro st t st1 hd; exact absurd hd (by simp [getNextTokenF])
  | succ f ih =>
    intro st t st1 hd
    cases hrest : st.rest with
    | nil =>
      simp only [getNextTokenF, hrest] at hd
      rw [Option.some.injEq, Except.ok.injEq, Prod.mk.injEq] at hd
      left
      rw [← hd.1]
    | cons c r =>
      simp only [getNextTokenF, hrest] at hd
      by_cases hsp : isSpaceChar c = true
      · rw [if_pos hsp] at hd
        rcases ih _ _ _ hd with hEof | hlt
        · exact Or.inl hEof
        · right
          have hsw := skipWhitespace_length_lt st c r hrest hsp
          rw [hrest] at hsw
          omega
      · rw [if_neg hsp] at hd
        by_cases hcm : (c = '/' && (r.head? = some '/' || r.head? = some '*')) = true
        · rw [if_pos hcm] at hd
          rcases ih _ _ _ hd with hEof | hlt
          · exact Or.inl hEof
          · right
            have hsc := skipComment_length_lt st c r hrest (by simpa using hcm)
            rw [hrest] at hsc
            omega
        · rw [if_neg hcm] at hd
          rw [Option.some.injEq] at hd
          right
          have hdc : dispatchChar c st = .ok (t, st1) := by
            rw [← hd]; simp [dispatchToken, hrest]
          have hfin := dispatchChar_length_lt st c r t st1 hrest hdc
          rw [hrest] at hfin
          exact hfin

theorem getNextTokenF_some : ∀ (f : Nat) (st : LexState),
    st.rest.length < f → getNextTokenF f st ≠ none := by
  intro f
  induction f with
  | zero => intro st h; exact absurd h (Nat.not_lt_zero _)
  | succ f ih =>
    intro st h
    cases hrest : st.rest with
    | nil => simp [getNextTokenF, hrest]
    | cons c r =>
      have hlen : st.rest.length = r.length + 1 := by rw [hrest]; rfl
      simp only [getNextTokenF, hrest]
      by_cases hsp : isSpaceChar c = true
      · rw [if_pos hsp]
        apply ih
        have := skipWhitespace_length_lt st c r hrest hsp
        omega
      · rw [if_neg hsp]
        by_cases hcm : (c = '/' && (r.head? = some '/' || r.head? = some '*')) = true
        · rw [if_pos hcm]
          apply ih
          have := skipComment_length_lt st c r hrest (by simpa using hcm)
          omega
        · rw [if_neg hcm]; simp

theorem tokenizeF_isSome : ∀ (f : Nat) (st : LexState),
    st.rest.length < f → (tokenizeF f st).isSome := by
  intro f
  induction f with
  | zero => intro st h; exact absurd h (Nat.not_lt_zero _)
  | succ f ih =>
    intro st h
    rcases hg : getNextTokenF (st.rest.length + 1) st with _ | e
    · exact absurd hg (getNextTokenF_some _ st (Nat.lt_succ_self _))
    · rcases e with e | pr
      · simp [tokenizeF, hg]
      · obtain ⟨t, st1⟩ := pr
        by_cases heof : t.type = .EOF
        · simp [tokenizeF, hg, heof]
        · have hlt : st1.rest.length < st.rest.length := by
            rcases getNextTokenF_progress _ _ _ _ hg with h1 | h2
            · exact absurd h1 heof
            · exact h2
          have hsome := ih st1 (by omega)
          simp only [tokenizeF, hg]
          rw [if_neg heof]
          rcases htf : tokenizeF f st1 with _ | r2
          · rw [htf] at hsome; simp at hsome
          · rcases r2 with e2 | ts <;> simp [htf]

theorem tokenizeF_spec : ∀ (f : Nat) (st : LexState) (ts : List Token),
    tokenizeF f st = some (.ok ts) →
    ts.length ≤ st.rest.length + 1 ∧
    ts.getLast?.map Token.type = some .EOF ∧
    ∀ u ∈ ts.dropLast, u.type ≠ .EOF := by
  intro f
  induction f with
  | zero => intro st ts h; exact absurd h (by simp [tokenizeF])
  | succ f ih =>
    intro st ts h
    simp only [tokenizeF] at h
    rcases hg : getNextTokenF (st.rest.length + 1) st with _ | e
    · simp only [hg] at h; exact absurd h (by simp)
    · rcases e with e | pr
      · simp only [hg] at h; exact absurd h (by simp)
      · obtain ⟨t, st1⟩ := pr
        simp only [hg] at h
        by_cases heof : t.type = .EOF
        · rw [if_pos heof] at h
          rw [Option.some.injEq, Except.ok.injEq] at h
          subst h
          refine ⟨by simp, by simp [heof], by simp⟩
        · rw [if_neg heof] at h
          rcases htf : tokenizeF f st1 with _ | r2
          · simp only [htf] at h; exact absurd h (by simp)
          · rcases r2 with e2 | ts1
            · simp only [htf] at h; exact absurd h (by simp)
            · simp only [htf] at h
              rw [Option.some.injEq, Except.ok.injEq] at h
              subst h
              obtain ⟨hlen, hlast, hinit⟩ := ih st1 ts1 htf
              have hlt : st1.rest.length < st.rest.length := by
                rcases getNextTokenF_progress _ _ _ _ hg with h1 | h2
                · exact absurd h1 heof
                · exact h2
              have hne : ts1 ≠ [] := by
                intro hnil; rw [hnil] at hlast; simp at hlast
              cases ts1 with
              | nil => exact absurd rfl hne
              | cons b l =>
                refine ⟨?_, ?_, ?_⟩
                · simp only [List.length_cons] at *; omega
                · rw [List.getLast?_cons_cons]; exact hlast
                · intro u hu
                  rw [List.dropLast_cons₂] at hu
                  rcases List.mem_cons.mp hu with h1 | h2
                  · rw [h1]; exact heof
                  · exact hinit u h2

/-- C1, amended part: tokenize always terminates, and whenever it
returns a token list (no invalid character was hit) that list ends in
exactly one EOF token and has length at most the input length plus
one. -/
theorem tokenize_terminates_eof_linear (src : String) :
    (tokenize src).isSome ∧
    ∀ ts, tokenize src = some (.ok ts) →
      ts.getLast?.map Token.type = some .EOF ∧
      (∀ u ∈ ts.dropLast, u.type ≠ .EOF) ∧
      ts.length ≤ src.toList.length + 1 := by
  constructor
  · exact tokenizeF_isSome _ _ (Nat.lt_succ_self _)
  · intro ts h
    obtain ⟨hlen, hlast, hinit⟩ := tokenizeF_spec _ _ _ h
    exact ⟨hlast, hinit, hlen⟩

/-- C1, counterexample: on the unrecognized character at-sign the
tokenizer raises SyntaxError (the error result) instead of emitting a
synthetic invalid-character token and continuing, so no token
sequence ending in an end-of-input token is produced for this
input. -/
theorem tokenize_invalid_char_aborts :
    tokenize "@" = some (.error ⟨'@', 1, 1⟩) := by decide

/-- C1, witness for tokenize_terminates_eof_linear at the concrete
source text int x; . -/
theorem tokenize_terminates_eof_linear_witness :
    (tokenize "int x;").isSome ∧
    (c1Toks.getLast?.map Token.type = some .EOF ∧
      (∀ u ∈ c1Toks.dropLast, u.type ≠ .EOF) ∧
      c1Toks.length ≤ "int x;".toList.length + 1) :=
  ⟨(tokenize_terminates_eof_linear "int x;").1,
   (tokenize_terminates_eof_linear "int x;").2 c1Toks (by decide)⟩

/-- C3, counterexample: on the scenario int main() ... the lexical
detector reports one missing-semicolon diagnostic (at the opening
parenthesis after main), not zero diagnostics. -/
theorem scenario1_lexical_diagnostic_nonzero :
    tokenize "int main() \x7b return 0; \x7d" = some (.ok c3Toks) ∧
    detectErrors c3Toks = some [⟨1, 9, .missingSemicolon, .error⟩] ∧
    detectErrors c3Toks ≠ some [] := by decide

/-- C3, amended: on that input the syntax analyzer and the type
checker each return an empty diagnostic list, while the lexical
detector returns exactly one missing-semicolon diagnostic at line 1,
column 9. -/
theorem scenario1_actual_diagnostics :
    tokenize "int main() \x7b return 0; \x7d" = some (.ok c3Toks) ∧
    analyzeFuel c3Toks 100 = some [] ∧
    resErrors (checkTypesFull c3Toks 100 initTC) = .ok [] ∧
    detectErrors c3Toks = some [⟨1, 9, .missingSemicolon, .error⟩] := by decide

/-- C4, counterexample: on int x = 5 the lexical stage reports two
missing-semicolon diagnostics (at the equals sign and at end of
input), not zero faults. -/
theorem scenario2_lexical_faults_nonzero :
    tokenize "int x = 5" = some (.ok c4Toks) ∧
    detectErrors c4Toks =
      some [⟨1, 7, .missingSemicolon, .error⟩, ⟨1, 10, .missingSemicolon, .error⟩] ∧
    detectErrors c4Toks ≠ some [] := by decide

/-- C4, amended: on int x = 5 the syntax analyzer reports an
expected-parenthesis-after-function-name error at the equals sign and
two invalid-statement errors (no missing-semicolon and no
unclosed-structure diagnostic), and the lexical detector reports the
two missing-semicolon diagnostics. -/
theorem scenario2_actual_diagnostics :
    tokenize "int x = 5" = some (.ok c4Toks) ∧
    analyzeFuel c4Toks 100 =
      some [⟨1, 7, .expectedLParenAfterFunctionName⟩, ⟨1, 7, .invalidStatement⟩,
            ⟨1, 9, .invalidStatement⟩] ∧
    detectErrors c4Toks =
      some [⟨1, 7, .missingSemicolon, .error⟩, ⟨1, 10, .missingSemicolon, .error⟩] := by decide

/-- C5: on the truncated declaration int f( the type checker scans
for the closing parenthesis past the end of the token list and raises
IndexError instead of returning a diagnostic list. -/
theorem check_types_raises_index_error :
    tokenize "int f(" = some (.ok c5Toks) ∧
    checkTypesFull c5Toks 100 initTC = .crash .indexError := by decide

/-- C6: after int a[5]; the recorded type descriptor of a is an array
of size 5, but the scalar declaration int b; then mutates the shared
basic-types int object in place, so the descriptor recorded for a
silently becomes a scalar. -/
theorem shared_type_descriptor_mutated :
    recordedAfter "int a[5];" "a" = some ⟨true, some 5, false⟩ ∧
    recordedAfter "int a[5]; int b;" "a" = some ⟨false, none, false⟩ := by decide

/-! ## C2: the parser loops forever on an unclosed function body -/

theorem c2_current_eof : ∀ (s : PState), 5 ≤ s.idx →
    currentToken c2Toks s = ⟨.EOF, "", 1, 13⟩ := by
  intro s h
  obtain ⟨errs, idx⟩ := s
  simp only [currentToken]
  split
  · next hlt =>
    have hl : c2Toks.length = 6 := rfl
    rw [hl] at hlt
    have h5 : idx = 5 := by
      simp only [PState.idx] at h hlt ⊢
      omega
    subst h5
    rfl
  · rfl

theorem c2_statement_step (f : Nat) (s : PState) (h : 5 ≤ s.idx) :
    parseStatement c2Toks (f + 1) s =
      some ⟨s.errors ++ [⟨1, 13, .invalidStatement⟩], s.idx + 1⟩ := by
  have hc := c2_current_eof s h
  simp only [parseStatement, hc, pushSynErr, nextTokenP]

/-- The _parse_block loop at end of input: _current_token keeps
returning the final EOF token, never a closing brace, while
_parse_statement emits one invalid-statement diagnostic per iteration
and moves the cursor further past the end, so no fuel is enough. -/
theorem c2_block_none : ∀ (f : Nat) (s : PState), 5 ≤ s.idx →
    parseBlock c2Toks f s = none := by
  intro f
  induction f with
  | zero => intro s h; rfl
  | succ f ih =>
    intro s h
    have hc := c2_current_eof s h
    simp only [parseBlock, hc]
    rw [if_neg (by decide : ¬ (Token.mk .EOF "" 1 13).type = .RBRACE)]
    cases f with
    | zero => rfl
    | succ g =>
      rw [c2_statement_step g s h]
      exact ih ⟨s.errors ++ [⟨1, 13, .invalidStatement⟩], s.idx + 1⟩ (by simp; omega)

theorem c2_paramlist (g : Nat) :
    parseParameterList c2Toks (g + 1) ⟨[], 3⟩ = some ⟨[], 3⟩ := by
  simp only [parseParameterList]
  rw [if_pos (by decide : (currentToken c2Toks ⟨[], 3⟩).type = .RPAREN)]

theorem c2_fundecl : ∀ g, parseFunctionDeclaration c2Toks (g + 1) ⟨[], 0⟩ = none := by
  intro g
  rcases g with _ | h
  · rfl
  · have e1 : expectTok c2Toks .IDENTIFIER .expectedFunctionName (nextTokenP ⟨[], 0⟩) =
        (true, ⟨[], 2⟩) := by decide
    have e2 : expectTok c2Toks .LPAREN .expectedLParenAfterFunctionName ⟨[], 2⟩ =
        (true, ⟨[], 3⟩) := by decide
    have e3 : expectTok c2Toks .RPAREN .expectedRParenAfterParameterList ⟨[], 3⟩ =
        (true, ⟨[], 4⟩) := by decide
    have e4 : expectTok c2Toks .LBRACE .expectedLBraceForFunctionBody ⟨[], 4⟩ =
        (true, ⟨[], 5⟩) := by decide
    simp only [parseFunctionDeclaration, e1, e2, c2_paramlist, e3, e4,
      Bool.not_true, Bool.false_eq_true, if_false]
    rw [c2_block_none (h + 1) ⟨[], 5⟩ (by simp)]

theorem c2_analyze_none : ∀ f, analyzeFuel c2Toks f = none := by
  intro f
  unfold analyzeFuel
  suffices h : parseProgram c2Toks f ⟨[], 0⟩ = none by rw [h]; rfl
  rcases f with _ | f1
  · rfl
  · have hcur : currentToken c2Toks ⟨[], 0⟩ = ⟨.INT, "int", 1, 1⟩ := by decide
    simp only [parseProgram, hcur]
    rw [if_neg (by decide), if_pos (by decide)]
    rcases f1 with _ | g
    · rfl
    · rw [c2_fundecl g]

/-- C2: SyntaxAnalyzer.analyze does not terminate on the token
sequence of int main() followed by an unclosed brace: the sequence is
exactly what the tokenizer produces for that source, yet no amount of
fuel lets analyze finish. -/
theorem analyze_nonterminating_unclosed_brace :
    tokenize "int main() \x7b" = some (.ok c2Toks) ∧ ¬ analyzeTerminates c2Toks := by
  refine ⟨by decide, ?_⟩
  rintro ⟨f, hf⟩
  rw [c2_analyze_none f] at hf
  simp at hf

/-! ## C7: scope discipline of the symbol table -/

theorem lookupA_insertA_self {α : Type} (l : List (String × α)) (n : String) (v : α) :
    lookupA (insertA l n v) n = some v := by
  induction l with
  | nil => simp [insertA, lookupA]
  | cons p rest ih =>
    obtain ⟨k, w⟩ := p
    simp only [insertA]
    by_cases hk : k = n
    · rw [if_pos hk]
      simp [lookupA]
    · rw [if_neg hk]
      simp only [lookupA]
      rw [if_neg hk]
      exact ih

/-- C7: with any table whose stack is a single depth-0 global frame
not yet holding name n, declaring a symbol named n, entering a scope
and declaring another symbol named n makes lookup return the inner
symbol; after exit_scope it returns the outer one again. -/
theorem scope_roundtrip (st : SymbolTable) (g : List (String × Symbol)) (n : String)
    (s0 s1 : Symbol)
    (hscopes : st.scopes = [g]) (hlevel : st.scope_level = 0)
    (hg : lookupA g n = none) (h0 : s0.name = n) (h1 : s1.name = n) :
    lookupSym ((addSymbol (enterScope ((addSymbol st s0).2)) s1).2) n = some s1 ∧
    lookupSym (exitScope ((addSymbol (enterScope ((addSymbol st s0).2)) s1).2)) n = some s0 := by
  obtain ⟨syms, lvl, scs⟩ := st
  simp only at hscopes hlevel
  subst hscopes
  subst hlevel
  simp only [addSymbol, h0, hg, enterScope, exitScope, lookupSym, lookupScopes,
    lookupA, h1, Option.isSome_none, Bool.false_eq_true, if_false, List.tail_cons,
    lookupA_insertA_self]
  simp [lookupA_insertA_self]

/-- C7, witness: the round trip on a fresh table with two concrete
symbols named x. -/
theorem scope_roundtrip_witness :
    lookupSym ((addSymbol (enterScope ((addSymbol initSymTab wSym0).2)) wSym1).2) "x" = some wSym1 ∧
    lookupSym (exitScope ((addSymbol (enterScope ((addSymbol initSymTab wSym0).2)) wSym1).2)) "x" = some wSym0 :=
  scope_roundtrip initSymTab [] "x" wSym0 wSym1 rfl rfl rfl rfl rfl

/-! ## C9: the missing-semicolon heuristic fires exactly on the
specified adjacent-pair shape -/

theorem shouldHaveSemicolon_claim (p c : Token) :
    shouldHaveSemicolon p c = (claimNeedSemiPrev p.type && !claimNoSemiCur c.type) := by
  have key : ∀ a b : TokenType,
      (needSemicolonAfter a && !noSemicolonAfter b && !(decide (b = .SEMICOLON))) =
      (claimNeedSemiPrev a && !claimNoSemiCur b) := by decide
  unfold shouldHaveSemicolon
  exact key p.type c.type

theorem filter_checkIdentifier (t : Token) (es : List LexicalError)
    (h : checkIdentifier t = some es) : es.filter isMissingSemiErr = [] := by
  unfold checkIdentifier at h
  cases hv : t.value.toList with
  | nil => rw [hv] at h; exact Option.noConfusion h
  | cons c0 cs =>
    rw [hv] at h
    rw [Option.some.injEq] at h
    subst h
    by_cases h1 : isDigitChar c0 = true <;>
      by_cases h2 : ((c0 :: cs).any fun c => !isIdentChar c) = true <;>
        simp [h1, h2, isMissingSemiErr, List.filter]

theorem filter_checkNumber (t : Token) :
    (checkNumber t).filter isMissingSemiErr = [] := by
  unfold checkNumber
  by_cases h0 : t.type = .FLOAT_LITERAL <;>
    by_cases h1 : (t.value.toList.count '.') > 1 <;>
      by_cases h2 : t.value.toList.getLast? = some '.' <;>
        simp [h0, h1, h2, isMissingSemiErr, List.filter]

theorem filter_checkOperator (prev? : Option Token) (t : Token) :
    (checkOperator prev? t).filter isMissingSemiErr = [] := by
  unfold checkOperator
  cases prev? with
  | none => rfl
  | some p =>
    by_cases h1 : isArithOp p.type = true <;> simp [h1, isMissingSemiErr, List.filter]

theorem filter_typeErrsOf (prev? : Option Token) (t : Token) (es0 : List LexicalError)
    (hT : typeErrsOf prev? t = some es0) : es0.filter isMissingSemiErr = [] := by
  unfold typeErrsOf at hT
  rcases htt : t.type <;> rw [htt] at hT <;>
    first
      | exact filter_checkIdentifier t es0 hT
      | (rw [← (Option.some.injEq _ _).mp hT]
         first
           | exact filter_checkNumber t
           | exact filter_checkOperator prev? t
           | simp [List.filter])

theorem filter_semiOf (prev? : Option Token) (t : Token) :
    (semiOf prev? t).filter isMissingSemiErr = claimSemiOf prev? t := by
  cases prev? with
  | none => rfl
  | some p =>
    simp only [semiOf, claimSemiOf]
    rw [shouldHaveSemicolon_claim p t]
    by_cases hs : (claimNeedSemiPrev p.type && !claimNoSemiCur t.type) = true <;>
      simp [hs, isMissingSemiErr, List.filter]

theorem perToken_filter (prev? : Option Token) (t : Token) (es : List LexicalError)
    (h : perToken prev? t = some es) :
    es.filter isMissingSemiErr = claimSemiOf prev? t := by
  unfold perToken at h
  rcases hT : typeErrsOf prev? t with _ | es0
  · rw [hT] at h; exact Option.noConfusion h
  · rw [hT] at h
    rw [Option.some.injEq] at h
    subst h
    rw [List.filter_append, filter_typeErrsOf prev? t es0 hT, List.nil_append]
    exact filter_semiOf prev? t

theorem detGo_spec : ∀ (ts : List Token) (prev? : Option Token),
    (∀ t ∈ ts, t.type = .IDENTIFIER → t.value ≠ "") →
    ∃ es, detGo prev? ts = some es ∧
      es.filter isMissingSemiErr = semiGo prev? ts := by
  intro ts
  induction ts with
  | nil => intro prev? _; exact ⟨[], rfl, rfl⟩
  | cons t rest ih =>
    intro prev? h
    have hok : ∃ es0, perToken prev? t = some es0 := by
      unfold perToken
      rcases hT : typeErrsOf prev? t with _ | es0
      · exfalso
        unfold typeErrsOf at hT
        rcases htt : t.type <;> rw [htt] at hT <;> try exact Option.noConfusion hT
        · -- IDENTIFIER case: checkIdentifier t = none forces empty value
          unfold checkIdentifier at hT
          cases hv : t.value.toList with
          | cons c0 cs => rw [hv] at hT; exact Option.noConfusion hT
          | nil =>
            have hne := h t (by simp) htt
            apply hne
            apply String.ext
            rw [show t.value.data = t.value.toList from rfl, hv]
      · exact ⟨es0 ++ semiOf prev? t, rfl⟩
    obtain ⟨es0, hes0⟩ := hok
    obtain ⟨es1, hes1, hf1⟩ := ih (some t) (fun u hu => h u (by simp [hu]))
    refine ⟨es0 ++ es1, ?_, ?_⟩
    · simp only [detGo, hes0, hes1]
    · rw [List.filter_append, hf1, perToken_filter prev? t es0 hes0]
      rfl

theorem semiGo_some (p : Token) (ts : List Token) :
    semiGo (some p) ts = missingSemiPer (p :: ts) := by
  induction ts generalizing p with
  | nil => rfl
  | cons t rest ih =>
    show claimSemiOf (some p) t ++ semiGo (some t) rest = _
    rw [ih t]
    show _ = (List.zip (p :: t :: rest) (t :: rest)).filterMap _
    rw [List.zip_cons_cons, List.filterMap_cons]
    simp only [claimSemiOf, missingSemiPer]
    by_cases hc : (claimNeedSemiPrev p.type && !claimNoSemiCur t.type) = true <;>
      simp [hc]

theorem semiGo_none (ts : List Token) : semiGo none ts = missingSemiPer ts := by
  cases ts with
  | nil => rfl
  | cons t rest =>
    show claimSemiOf none t ++ semiGo (some t) rest = _
    rw [semiGo_some t rest]
    rfl

/-- C9: for token sequences whose IDENTIFIER tokens carry nonempty
text (always true of tokenizer output; an empty one would make the
detector raise IndexError), detect_errors returns a list whose
missing-semicolon diagnostics are exactly one per adjacent pair
(prev, cur) with prev kind in the identifier/literal/closing set and
cur kind outside the excused set, positioned at cur. -/
theorem missing_semicolon_heuristic_exact (ts : List Token)
    (h : ∀ t ∈ ts, t.type = .IDENTIFIER → t.value ≠ "") :
    ∃ es, detectErrors ts = some es ∧
      es.filter isMissingSemiErr = missingSemiPer ts := by
  obtain ⟨es, h1, h2⟩ := detGo_spec ts none h
  exact ⟨es, h1, by rw [h2, semiGo_none]⟩

/-- C9, witness for missing_semicolon_heuristic_exact at the token
sequence of int x = 5. -/
theorem missing_semicolon_heuristic_exact_witness :
    detectErrors c4Toks = some c4LexErrs ∧
    c4LexErrs.filter isMissingSemiErr = missingSemiPer c4Toks := by
  obtain ⟨es, h1, h2⟩ := missing_semicolon_heuristic_exact c4Toks (by decide)
  have hes : es = c4LexErrs := by
    have hd : detectErrors c4Toks = some c4LexErrs := by decide
    rw [h1] at hd
    exact (Option.some.injEq _ _).mp hd
  subst hes
  exact ⟨h1, h2⟩

/-! ## C10: duplicate function declarations are flagged and the later
signature wins in the registry -/

theorem c10_paramScan (f : Nat) (st : TCState) :
    paramScan declToks (f + 1) 3 [] st = .ok (3, []) := by
  have p3 : getTok declToks 3 = .ok ⟨.RPAREN, ")", 1, 7⟩ := rfl
  simp [paramScan, p3]

theorem c10_bodyScan (f : Nat) (st : TCState) :
    bodyScan declToks (f + 1) 5 st = .ok (5, st) := by
  have p5 : getTok declToks 5 = .ok ⟨.RBRACE, "\x7d", 1, 11⟩ := rfl
  simp [bodyScan, p5, isParamType]

/-- C10: from any checker state in which f is already registered,
checking the parameterless declaration int f ( ) with empty body
emits one duplicate-declaration diagnostic, overwrites the registry
entry for f with the new (empty) signature, and a subsequent call
f(1) is then validated against that later signature, yielding a
too-many-arguments diagnostic. -/
theorem duplicate_function_declaration_last_wins (fuel : Nat) (s : TCState) (g : FuncR)
    (h : lookupA s.functions "f" = some g) :
    ∃ s2, checkFunctionDeclaration declToks (fuel + 2) 0 s = .ok (5, s2) ∧
      s2.errors = s.errors ++ [⟨1, 1, .functionAlreadyDeclared "f", .error⟩] ∧
      lookupA s2.functions "f" = some ⟨"f", .int, [], false⟩ ∧
      ∃ s3, checkFunctionCall callToks (fuel + 2) 0 s2 = .ok (3, s3) ∧
        s3.errors = s2.errors ++ [⟨2, 3, .tooManyArguments "f", .error⟩] := by
  have hl : (lookupA s.functions "f").isSome = true := by rw [h]; rfl
  have g0 : getTok declToks 0 = .ok ⟨.INT, "int", 1, 1⟩ := rfl
  have g1 : getTok declToks 1 = .ok ⟨.IDENTIFIER, "f", 1, 5⟩ := rfl
  have bk : basicKey "int" = .ok .int := rfl
  have hrun : checkFunctionDeclaration declToks (fuel + 2) 0 s =
      .ok (5, ⟨s.errors ++ [⟨1, 1, .functionAlreadyDeclared "f", .error⟩],
        s.vars, insertA s.functions "f" ⟨"f", .int, [], false⟩,
        s.scope + 1 - 1, s.basics⟩) := by
    simp only [checkFunctionDeclaration, g0, g1, bk, hl, if_true, pushSemErr]
    norm_num [c10_paramScan, c10_bodyScan]
  refine ⟨_, hrun, by simp, lookupA_insertA_self _ _ _, ?_⟩
  have k0 : getTok callToks 0 = .ok ⟨.IDENTIFIER, "f", 2, 1⟩ := rfl
  have k2 : getTok callToks 2 = .ok ⟨.INTEGER, "1", 2, 3⟩ := rfl
  have hlk : lookupA (insertA s.functions "f" (⟨"f", .int, [], false⟩ : FuncR)) "f" =
      some ⟨"f", .int, [], false⟩ := lookupA_insertA_self _ _ _
  have hcall : checkFunctionCall callToks (fuel + 2) 0
      (⟨s.errors ++ [⟨1, 1, .functionAlreadyDeclared "f", .error⟩],
        s.vars, insertA s.functions "f" ⟨"f", .int, [], false⟩,
        s.scope + 1 - 1, s.basics⟩ : TCState) =
      .ok (3, ⟨(s.errors ++ [⟨1, 1, .functionAlreadyDeclared "f", .error⟩]) ++
          [⟨2, 3, .tooManyArguments "f", .error⟩],
        s.vars, insertA s.functions "f" ⟨"f", .int, [], false⟩,
        s.scope + 1 - 1, s.basics⟩) := by
    simp only [checkFunctionCall, k0, hlk, pushSemErr]
    norm_num [argScan, k2]
    simp [pushSemErr]
  exact ⟨_, hcall, by simp⟩

/-- C10, witness: the step from the concrete state wTCState, in which
f has a one-int-parameter signature. -/
theorem duplicate_function_declaration_last_wins_witness :
    checkFunctionDeclaration declToks 2 0 wTCState = .ok (5, wS2) ∧
    wS2.errors = wTCState.errors ++ [⟨1, 1, .functionAlreadyDeclared "f", .error⟩] ∧
    lookupA wS2.functions "f" = some ⟨"f", .int, [], false⟩ ∧
    checkFunctionCall callToks 2 0 wS2 = .ok (3, wS3) ∧
    wS3.errors = wS2.errors ++ [⟨2, 3, .tooManyArguments "f", .error⟩] := by
  obtain ⟨s2, h1, h2, h3, s3, h4, h5⟩ :=
    duplicate_function_declaration_last_wins 0 wTCState wFunc rfl
  norm_num at h1
  have e2 : s2 = wS2 := by
    have hd : checkFunctionDeclaration declToks 2 0 wTCState = .ok (5, wS2) := by decide
    rw [h1] at hd
    have := (Res.ok.injEq _ _).mp hd
    exact (Prod.mk.injEq _ _ _ _).mp this |>.2
  subst e2
  norm_num at h4
  have e3 : s3 = wS3 := by
    have hd : checkFunctionCall callToks 2 0 wS2 = .ok (3, wS3) := by decide
    rw [h4] at hd
    have := (Res.ok.injEq _ _).mp hd
    exact (Prod.mk.injEq _ _ _ _).mp this |>.2
  subst e3
  exact ⟨h1, h2, h3, h4, h5⟩



/-! C8: repeatability of check_types.  The relations RelS/RelA/RelB/RelT
and VAgree express that two checker runs differing only in the carried-over
contents of the basic-types objects stay in lock step wherever the
diagnostics can observe them. -/

theorem lookupA_mem {α : Type} (l : List (String × α)) (k : String) (x : α)
    (h : lookupA l k = some x) : (k, x) ∈ l := by
  induction l with
  | nil => exact Option.noConfusion h
  | cons p rest ih =>
    obtain ⟨k2, v⟩ := p
    simp only [lookupA] at h
    by_cases hk : k2 = k
    · rw [if_pos hk] at h
      rw [Option.some.injEq] at h
      subst hk
      subst h
      exact List.mem_cons_self _ _
    · rw [if_neg hk] at h
      exact List.mem_cons_of_mem _ (ih h)

theorem insertA_mem {α : Type} (l : List (String × α)) (n : String) (x : α)
    (p : String × α) (h : p ∈ insertA l n x) : p ∈ l ∨ p = (n, x) := by
  induction l with
  | nil => simp [insertA] at h; right; exact h
  | cons q rest ih =>
    obtain ⟨k2, v⟩ := q
    simp only [insertA] at h
    by_cases hk : k2 = n
    · rw [if_pos hk] at h
      rcases List.mem_cons.mp h with h1 | h2
      · right; exact h1
      · left; exact List.mem_cons_of_mem _ h2
    · rw [if_neg hk] at h
      rcases List.mem_cons.mp h with h1 | h2
      · left; rw [h1]; exact List.mem_cons_self _ _
      · rcases ih h2 with h3 | h4
        · left; exact List.mem_cons_of_mem _ h3
        · right; exact h4

theorem getB_setB_self (b : Basics) (k : BaseKey) (v : TyM) :
    getB (setB b k v) k = v := by
  cases k <;> rfl

theorem getB_setB_ne (b : Basics) (k k2 : BaseKey) (v : TyM) (h : ¬ k = k2) :
    getB (setB b k v) k2 = getB b k2 := by
  cases k <;> cases k2 <;> first | rfl | exact absurd rfl h

theorem vagree_write (vr : List (String × VarR)) (b1 b2 : Basics) (k : BaseKey)
    (n : String) (ini : Bool) (sc : Nat) (ba : Bool) (z : Option Int)
    (hva : VAgree vr b1 b2) :
    VAgree (insertA vr n ⟨n, k, ini, sc⟩)
      (setB b1 k { getB b1 k with is_array := ba, array_size := z })
      (setB b2 k { getB b2 k with is_array := ba, array_size := z }) := by
  intro p hp
  rcases insertA_mem _ _ _ _ hp with hin | heq
  · by_cases hk : k = p.2.base
    · rw [← hk, getB_setB_self, getB_setB_self]
    · rw [getB_setB_ne _ _ _ _ hk, getB_setB_ne _ _ _ _ hk]
      exact hva p hin
  · subst heq
    rw [getB_setB_self, getB_setB_self]

theorem paramScan_basics_eq (ts : List Token) : ∀ (f : Nat) (i : Nat) (acc : List VarR)
    (e : List SemErr) (vr : List (String × VarR)) (fn : List (String × FuncR))
    (sc : Nat) (b1 b2 : Basics),
    paramScan ts f i acc ⟨e, vr, fn, sc, b1⟩ = paramScan ts f i acc ⟨e, vr, fn, sc, b2⟩ := by
  intro f
  induction f with
  | zero => intro i acc e vr fn sc b1 b2; rfl
  | succ f ih =>
    intro i acc e vr fn sc b1 b2
    simp only [paramScan]
    rcases getTok ts i with t | c | _
    · by_cases h1 : t.type = .RPAREN
      · simp [h1]
      · simp only [h1, if_false]
        by_cases h2 : isParamType t.type = true
        · simp only [h2, if_true]
          rcases basicKey t.value with k | c | _
          · rcases getTok ts (i + 1) with t1 | c | _
            · exact ih (i + 2) _ e vr fn sc b1 b2
            · rfl
            · rfl
          · rfl
          · rfl
        · simp only [h2, if_false]
          exact ih (i + 1) acc e vr fn sc b1 b2
    · rfl
    · rfl

theorem relS_apply (K : TCState → Res (Nat × TCState))
    (hK : ∀ e vr fn sc b1 b2, VAgree vr b1 b2 →
      RelS (K ⟨e, vr, fn, sc, b1⟩) (K ⟨e, vr, fn, sc, b2⟩))
    (u v : TCState) (he : u.errors = v.errors) (hv : u.vars = v.vars)
    (hf : u.functions = v.functions) (hs : u.scope = v.scope)
    (hva : VAgree u.vars u.basics v.basics) : RelS (K u) (K v) := by
  obtain ⟨ue, uv, uf, us, ub⟩ := u
  obtain ⟨ve, vv, vf, vs, vb⟩ := v
  replace he : ue = ve := he
  replace hv : uv = vv := hv
  replace hf : uf = vf := hf
  replace hs : us = vs := hs
  subst he; subst hv; subst hf; subst hs
  exact hK ue uv uf us ub vb hva

theorem relT_apply (K : TCState → Res TCState)
    (hK : ∀ e vr fn sc b1 b2, VAgree vr b1 b2 →
      RelT (K ⟨e, vr, fn, sc, b1⟩) (K ⟨e, vr, fn, sc, b2⟩))
    (u v : TCState) (he : u.errors = v.errors) (hv : u.vars = v.vars)
    (hf : u.functions = v.functions) (hs : u.scope = v.scope)
    (hva : VAgree u.vars u.basics v.basics) : RelT (K u) (K v) := by
  obtain ⟨ue, uv, uf, us, ub⟩ := u
  obtain ⟨ve, vv, vf, vs, vb⟩ := v
  replace he : ue = ve := he
  replace hv : uv = vv := hv
  replace hf : uf = vf := hf
  replace hs : us = vs := hs
  subst he; subst hv; subst hf; subst hs
  exact hK ue uv uf us ub vb hva

theorem relA_apply (K : TCState → Res (Nat × Nat × TCState))
    (hK : ∀ e vr fn sc b1 b2, VAgree vr b1 b2 →
      RelA (K ⟨e, vr, fn, sc, b1⟩) (K ⟨e, vr, fn, sc, b2⟩))
    (u v : TCState) (he : u.errors = v.errors) (hv : u.vars = v.vars)
    (hf : u.functions = v.functions) (hs : u.scope = v.scope)
    (hva : VAgree u.vars u.basics v.basics) : RelA (K u) (K v) := by
  obtain ⟨ue, uv, uf, us, ub⟩ := u
  obtain ⟨ve, vv, vf, vs, vb⟩ := v
  replace he : ue = ve := he
  replace hv : uv = vv := hv
  replace hf : uf = vf := hf
  replace hs : us = vs := hs
  subst he; subst hv; subst hf; subst hs
  exact hK ue uv uf us ub vb hva

theorem relS_bind (r1 r2 : Res (Nat × TCState))
    (K1 K2 : Nat → TCState → Res (Nat × TCState))
    (R1 R2 : Res (Nat × TCState))
    (hR1 : R1 = match r1 with | .crash c => .crash c | .fuelOut => .fuelOut | .ok (j, u) => K1 j u)
    (hR2 : R2 = match r2 with | .crash c => .crash c | .fuelOut => .fuelOut | .ok (j, v) => K2 j v)
    (hr : RelS r1 r2)
    (hK : ∀ j u v, r1 = .ok (j, u) → r2 = .ok (j, v) → u.errors = v.errors →
      u.vars = v.vars → u.functions = v.functions → u.scope = v.scope →
      VAgree u.vars u.basics v.basics → RelS (K1 j u) (K2 j v)) :
    RelS R1 R2 := by
  subst hR1; subst hR2
  rcases h1 : r1 with ⟨j1, u⟩ | c1 | _ <;> rcases h2 : r2 with ⟨j2, v⟩ | c2 | _ <;>
    rw [h1, h2] at hr <;> simp only [RelS] at hr <;> try exact hr.elim
  · obtain ⟨hj, he, hv, hf, hs, hva⟩ := hr
    subst hj
    exact hK j1 u v h1 h2 he hv hf hs hva
  · subst hr; trivial
  · trivial

theorem relS_bindT (r1 r2 : Res (Nat × TCState))
    (K1 K2 : Nat → TCState → Res TCState)
    (R1 R2 : Res TCState)
    (hR1 : R1 = match r1 with | .crash c => .crash c | .fuelOut => .fuelOut | .ok (j, u) => K1 j u)
    (hR2 : R2 = match r2 with | .crash c => .crash c | .fuelOut => .fuelOut | .ok (j, v) => K2 j v)
    (hr : RelS r1 r2)
    (hK : ∀ j u v, r1 = .ok (j, u) → r2 = .ok (j, v) → u.errors = v.errors →
      u.vars = v.vars → u.functions = v.functions → u.scope = v.scope →
      VAgree u.vars u.basics v.basics → RelT (K1 j u) (K2 j v)) :
    RelT R1 R2 := by
  subst hR1; subst hR2
  rcases h1 : r1 with ⟨j1, u⟩ | c1 | _ <;> rcases h2 : r2 with ⟨j2, v⟩ | c2 | _ <;>
    rw [h1, h2] at hr <;> simp only [RelS] at hr <;> try exact hr.elim
  · obtain ⟨hj, he, hv, hf, hs, hva⟩ := hr
    subst hj
    exact hK j1 u v h1 h2 he hv hf hs hva
  · subst hr; trivial
  · trivial

theorem relS_bindA (r1 r2 : Res (Nat × TCState))
    (K1 K2 : Nat → TCState → Res (Nat × Nat × TCState))
    (R1 R2 : Res (Nat × Nat × TCState))
    (hR1 : R1 = match r1 with | .crash c => .crash c | .fuelOut => .fuelOut | .ok (j, u) => K1 j u)
    (hR2 : R2 = match r2 with | .crash c => .crash c | .fuelOut => .fuelOut | .ok (j, v) => K2 j v)
    (hr : RelS r1 r2)
    (hK : ∀ j u v, r1 = .ok (j, u) → r2 = .ok (j, v) → u.errors = v.errors →
      u.vars = v.vars → u.functions = v.functions → u.scope = v.scope →
      VAgree u.vars u.basics v.basics → RelA (K1 j u) (K2 j v)) :
    RelA R1 R2 := by
  subst hR1; subst hR2
  rcases h1 : r1 with ⟨j1, u⟩ | c1 | _ <;> rcases h2 : r2 with ⟨j2, v⟩ | c2 | _ <;>
    rw [h1, h2] at hr <;> simp only [RelS] at hr <;> try exact hr.elim
  · obtain ⟨hj, he, hv, hf, hs, hva⟩ := hr
    subst hj
    exact hK j1 u v h1 h2 he hv hf hs hva
  · subst hr; trivial
  · trivial

theorem relA_bindS (r1 r2 : Res (Nat × Nat × TCState))
    (K1 K2 : Nat → Nat → TCState → Res (Nat × TCState))
    (R1 R2 : Res (Nat × TCState))
    (hR1 : R1 = match r1 with | .crash c => .crash c | .fuelOut => .fuelOut | .ok (j, p, u) => K1 j p u)
    (hR2 : R2 = match r2 with | .crash c => .crash c | .fuelOut => .fuelOut | .ok (j, p, v) => K2 j p v)
    (hr : RelA r1 r2)
    (hK : ∀ j p u v, r1 = .ok (j, p, u) → r2 = .ok (j, p, v) → u.errors = v.errors →
      u.vars = v.vars → u.functions = v.functions → u.scope = v.scope →
      VAgree u.vars u.basics v.basics → RelS (K1 j p u) (K2 j p v)) :
    RelS R1 R2 := by
  subst hR1; subst hR2
  rcases h1 : r1 with ⟨j1, p1, u⟩ | c1 | _ <;> rcases h2 : r2 with ⟨j2, p2, v⟩ | c2 | _ <;>
    rw [h1, h2] at hr <;> simp only [RelA] at hr <;> try exact hr.elim
  · obtain ⟨hj, hp, he, hv, hf, hs, hva⟩ := hr
    subst hj; subst hp
    exact hK j1 p1 u v h1 h2 he hv hf hs hva
  · subst hr; trivial
  · trivial

theorem vagree_insert_agree (vr : List (String × VarR)) (b1 b2 : Basics) (n : String)
    (w : VarR) (hva : VAgree vr b1 b2)
    (hw : (getB b1 w.base).is_array = (getB b2 w.base).is_array) :
    VAgree (insertA vr n w) b1 b2 := by
  intro p hp
  rcases insertA_mem _ _ _ _ hp with hin | heq
  · exact hva p hin
  · subst heq; exact hw

theorem relS_vd_finish (k : BaseKey) (isArr : Bool) (sz : Option Int) (n : String)
    (ini : Bool) (j : Nat) (u v : TCState)
    (he : u.errors = v.errors) (hv : u.vars = v.vars) (hf : u.functions = v.functions)
    (hs : u.scope = v.scope) (hva : VAgree u.vars u.basics v.basics) :
    RelS
      (.ok (j, { u with
        vars := insertA u.vars n ⟨n, k, ini, u.scope⟩,
        basics := setB u.basics k { getB u.basics k with is_array := isArr, array_size := sz } }))
      (.ok (j, { v with
        vars := insertA v.vars n ⟨n, k, ini, v.scope⟩,
        basics := setB v.basics k { getB v.basics k with is_array := isArr, array_size := sz } })) := by
  obtain ⟨ue, uv, uf, us, ub⟩ := u
  obtain ⟨ve, vv, vf, vs, vb⟩ := v
  replace he : ue = ve := he
  replace hv : uv = vv := hv
  replace hf : uf = vf := hf
  replace hs : us = vs := hs
  subst he; subst hv; subst hf; subst hs
  replace hva : VAgree uv ub vb := hva
  exact ⟨rfl, rfl, rfl, rfl, rfl, vagree_write uv ub vb k n ini us isArr sz hva⟩



theorem relS_bindB (r1 r2 : Res (Nat × TCState))
    (K1 K2 : Nat → TCState → Res (Nat × Bool × TCState))
    (R1 R2 : Res (Nat × Bool × TCState))
    (hR1 : R1 = match r1 with | .crash c => .crash c | .fuelOut => .fuelOut | .ok (j, u) => K1 j u)
    (hR2 : R2 = match r2 with | .crash c => .crash c | .fuelOut => .fuelOut | .ok (j, v) => K2 j v)
    (hr : RelS r1 r2)
    (hK : ∀ j u v, r1 = .ok (j, u) → r2 = .ok (j, v) → u.errors = v.errors →
      u.vars = v.vars → u.functions = v.functions → u.scope = v.scope →
      VAgree u.vars u.basics v.basics → RelB (K1 j u) (K2 j v)) :
    RelB R1 R2 := by
  subst hR1; subst hR2
  rcases h1 : r1 with ⟨j1, u⟩ | c1 | _ <;> rcases h2 : r2 with ⟨j2, v⟩ | c2 | _ <;>
    rw [h1, h2] at hr <;> simp only [RelS] at hr <;> try exact hr.elim
  · obtain ⟨hj, he, hv, hf, hs, hva⟩ := hr
    subst hj
    exact hK j1 u v h1 h2 he hv hf hs hva
  · subst hr; trivial
  · trivial

theorem relB_bindS (r1 r2 : Res (Nat × Bool × TCState))
    (K1 K2 : Nat → Bool → TCState → Res (Nat × TCState))
    (R1 R2 : Res (Nat × TCState))
    (hR1 : R1 = match r1 with | .crash c => .crash c | .fuelOut => .fuelOut | .ok (j, p, u) => K1 j p u)
    (hR2 : R2 = match r2 with | .crash c => .crash c | .fuelOut => .fuelOut | .ok (j, p, v) => K2 j p v)
    (hr : RelB r1 r2)
    (hK : ∀ j p u v, r1 = .ok (j, p, u) → r2 = .ok (j, p, v) → u.errors = v.errors →
      u.vars = v.vars → u.functions = v.functions → u.scope = v.scope →
      VAgree u.vars u.basics v.basics → RelS (K1 j p u) (K2 j p v)) :
    RelS R1 R2 := by
  subst hR1; subst hR2
  rcases h1 : r1 with ⟨j1, p1, u⟩ | c1 | _ <;> rcases h2 : r2 with ⟨j2, p2, v⟩ | c2 | _ <;>
    rw [h1, h2] at hr <;> simp only [RelB] at hr <;> try exact hr.elim
  · obtain ⟨hj, hp, he, hv, hf, hs, hva⟩ := hr
    subst hj; subst hp
    exact hK j1 p1 u v h1 h2 he hv hf hs hva
  · subst hr; trivial
  · trivial


theorem relS_bindP (r1 r2 : Res (Nat × List VarR))
    (K1 K2 : Nat → List VarR → Res (Nat × TCState))
    (R1 R2 : Res (Nat × TCState))
    (hR1 : R1 = match r1 with | .crash c => .crash c | .fuelOut => .fuelOut | .ok (j, ps) => K1 j ps)
    (hR2 : R2 = match r2 with | .crash c => .crash c | .fuelOut => .fuelOut | .ok (j, ps) => K2 j ps)
    (hreq : r1 = r2)
    (hK : ∀ j ps, r1 = .ok (j, ps) → RelS (K1 j ps) (K2 j ps)) :
    RelS R1 R2 := by
  subst hR1; subst hR2; subst hreq
  rcases h : r1 with ⟨j, ps⟩ | c | _
  · exact hK j ps h
  · trivial
  · trivial

theorem checker_basics_preserved (ts : List Token) : ∀ (fuel : Nat),
    (∀ i s j u, checkFunctionCall ts fuel i s = .ok (j, u) → u.basics = s.basics) ∧
    (∀ i pidx func s j p u, argScan ts fuel i pidx func s = .ok (j, p, u) → u.basics = s.basics) ∧
    (∀ i s j u, checkVariableUsage ts fuel i s = .ok (j, u) → u.basics = s.basics) ∧
    (∀ i ek s j u, checkExpression ts fuel i ek s = .ok (j, u) → u.basics = s.basics) ∧
    (∀ i ek s j u, exprOpScan ts fuel i ek s = .ok (j, u) → u.basics = s.basics) := by
  intro fuel
  induction fuel with
  | zero =>
    refine ⟨fun i s j u h => ?_, fun i pidx func s j p u h => ?_, fun i s j u h => ?_,
      fun i ek s j u h => ?_, fun i ek s j u h => ?_⟩ <;> exact Res.noConfusion h
  | succ f ih =>
    obtain ⟨ihFC, ihAS, ihVU, ihEX, ihOP⟩ := ih
    refine ⟨?_, ?_, ?_, ?_, ?_⟩
    · -- checkFunctionCall
      intro i s j u h
      simp only [checkFunctionCall] at h
      rcases hg : getTok ts i with t0 | c | _ <;> simp only [hg] at h <;>
        try exact Res.noConfusion h
      rcases hlk : lookupA s.functions t0.value with _ | func <;> simp only [hlk] at h
      · simp only [Res.ok.injEq, Prod.mk.injEq] at h
        obtain ⟨hj, hu⟩ := h
        subst hu; rfl
      · rcases har : argScan ts f (i + 2) 0 func s with ⟨iA, pA, sA⟩ | c | _ <;>
          simp only [har] at h <;> try exact Res.noConfusion h
        simp only [Res.ok.injEq, Prod.mk.injEq] at h
        obtain ⟨hj, hu⟩ := h
        have hbA : sA.basics = s.basics := ihAS (i + 2) 0 func s iA pA sA har
        subst hu
        by_cases hpp : pA < func.parameters.length
        · rw [if_pos hpp]; exact hbA
        · rw [if_neg hpp]; exact hbA
    · -- argScan
      intro i pidx func s j p u h
      simp only [argScan] at h
      rcases hg : getTok ts i with t | c | _ <;> simp only [hg] at h <;>
        try exact Res.noConfusion h
      by_cases hr : t.type = .RPAREN
      · rw [if_pos hr] at h
        simp only [Res.ok.injEq, Prod.mk.injEq] at h
        obtain ⟨h1, h2, hu⟩ := h
        subst hu; rfl
      · rw [if_neg hr] at h
        by_cases hp : pidx < func.parameters.length
        · rw [dif_pos hp] at h
          rcases hce : checkExpression ts f i (func.parameters.get ⟨pidx, hp⟩).base s with
            ⟨i1, s1⟩ | c | _ <;> simp only [hce] at h <;> try exact Res.noConfusion h
          rcases hg1 : getTok ts i1 with t1 | c | _ <;> simp only [hg1] at h <;>
            try exact Res.noConfusion h
          exact (ihAS _ (pidx + 1) func s1 j p u h).trans (ihEX i _ s i1 s1 hce)
        · rw [dif_neg hp] at h
          simp only [Res.ok.injEq, Prod.mk.injEq] at h
          obtain ⟨h1, h2, hu⟩ := h
          subst hu; rfl
    · -- checkVariableUsage
      intro i s j u h
      simp only [checkVariableUsage] at h
      rcases hg : getTok ts i with t0 | c | _ <;> simp only [hg] at h <;>
        try exact Res.noConfusion h
      rcases hlk : lookupA s.vars t0.value with _ | var <;> simp only [hlk] at h
      · simp only [Res.ok.injEq, Prod.mk.injEq] at h
        obtain ⟨hj, hu⟩ := h
        subst hu; rfl
      · rcases hb : ts.get? (i + 1) with _ | tb <;> simp only [hb] at h
        · simp only [Res.ok.injEq, Prod.mk.injEq] at h
          obtain ⟨hj, hu⟩ := h
          subst hu; rfl
        · by_cases hlb : tb.type = .LBRACKET
          · rw [if_pos hlb] at h
            by_cases harr : (getB s.basics var.base).is_array = true
            · rw [if_pos harr] at h
              rcases hce : checkExpression ts f (i + 2) .int s with ⟨i2, s2⟩ | c | _ <;>
                simp only [hce] at h <;> try exact Res.noConfusion h
              have hs2 : s2.basics = s.basics := ihEX (i + 2) .int s i2 s2 hce
              rcases hta : ts.get? (i2 + 1) with _ | ta <;> simp only [hta] at h
              · simp only [Res.ok.injEq, Prod.mk.injEq] at h
                obtain ⟨hj, hu⟩ := h
                subst hu; exact hs2
              · by_cases ha : ta.type = .ASSIGN
                · rw [if_pos ha] at h
                  rcases hce2 : checkExpression ts f (i2 + 1 + 1) var.base s2 with
                    ⟨i3, s3⟩ | c | _ <;> simp only [hce2] at h <;> try exact Res.noConfusion h
                  simp only [Res.ok.injEq, Prod.mk.injEq] at h
                  obtain ⟨hj, hu⟩ := h
                  subst hu
                  exact (ihEX (i2 + 1 + 1) var.base s2 i3 s3 hce2).trans hs2
                · rw [if_neg ha] at h
                  simp only [Res.ok.injEq, Prod.mk.injEq] at h
                  obtain ⟨hj, hu⟩ := h
                  subst hu; exact hs2
            · rw [if_neg harr] at h
              rcases hce : checkExpression ts f (i + 2) .int (pushSemErr s tb (.notAnArray t0.value)) with
                ⟨i2, s2⟩ | c | _ <;> simp only [hce] at h <;> try exact Res.noConfusion h
              have hs2 : s2.basics = s.basics :=
                ihEX (i + 2) .int (pushSemErr s tb (.notAnArray t0.value)) i2 s2 hce
              rcases hta : ts.get? (i2 + 1) with _ | ta <;> simp only [hta] at h
              · simp only [Res.ok.injEq, Prod.mk.injEq] at h
                obtain ⟨hj, hu⟩ := h
                subst hu; exact hs2
              · by_cases ha : ta.type = .ASSIGN
                · rw [if_pos ha] at h
                  rcases hce2 : checkExpression ts f (i2 + 1 + 1) var.base s2 with
                    ⟨i3, s3⟩ | c | _ <;> simp only [hce2] at h <;> try exact Res.noConfusion h
                  simp only [Res.ok.injEq, Prod.mk.injEq] at h
                  obtain ⟨hj, hu⟩ := h
                  subst hu
                  exact (ihEX (i2 + 1 + 1) var.base s2 i3 s3 hce2).trans hs2
                · rw [if_neg ha] at h
                  simp only [Res.ok.injEq, Prod.mk.injEq] at h
                  obtain ⟨hj, hu⟩ := h
                  subst hu; exact hs2
          · simp only [if_neg hlb, hb] at h
            by_cases ha : tb.type = .ASSIGN
            · rw [if_pos ha] at h
              rcases hce2 : checkExpression ts f (i + 1 + 1) var.base s with ⟨i3, s3⟩ | c | _ <;>
                simp only [hce2] at h <;> try exact Res.noConfusion h
              simp only [Res.ok.injEq, Prod.mk.injEq] at h
              obtain ⟨hj, hu⟩ := h
              subst hu
              exact ihEX (i + 1 + 1) var.base s i3 s3 hce2
            · rw [if_neg ha] at h
              simp only [Res.ok.injEq, Prod.mk.injEq] at h
              obtain ⟨hj, hu⟩ := h
              subst hu; rfl
    · -- checkExpression
      intro i ek s j u h
      simp only [checkExpression] at h
      rcases hg : getTok ts i with t | c | _ <;> simp only [hg] at h <;>
        try exact Res.noConfusion h
      cases htt : t.type <;> simp only [htt] at h
      case IDENTIFIER =>
        by_cases hnl : nextIsLParen ts i = true
        · rw [if_pos hnl] at h
          rcases hfc : checkFunctionCall ts f i s with ⟨i1, s1⟩ | c | _ <;>
            simp only [hfc] at h <;> try exact Res.noConfusion h
          exact (ihOP i1 ek s1 j u h).trans (ihFC i s i1 s1 hfc)
        · rw [if_neg hnl] at h
          rcases hvu : checkVariableUsage ts f i s with ⟨i1, s1⟩ | c | _ <;>
            simp only [hvu] at h <;> try exact Res.noConfusion h
          exact (ihOP i1 ek s1 j u h).trans (ihVU i s i1 s1 hvu)
      case INTEGER =>
        by_cases hbn : baseName ek ≠ "int"
        · rw [if_pos hbn] at h
          exact ihOP (i + 1) ek (pushSemErr s t (.typeMismatch (baseName ek) "int")) j u h
        · rw [if_neg hbn] at h
          exact ihOP (i + 1) ek s j u h
      case FLOAT_LITERAL =>
        by_cases hbn : baseName ek ≠ "float"
        · rw [if_pos hbn] at h
          exact ihOP (i + 1) ek (pushSemErr s t (.typeMismatch (baseName ek) "float")) j u h
        · rw [if_neg hbn] at h
          exact ihOP (i + 1) ek s j u h
      case CHAR_LITERAL =>
        by_cases hbn : baseName ek ≠ "char"
        · rw [if_pos hbn] at h
          exact ihOP (i + 1) ek (pushSemErr s t (.typeMismatch (baseName ek) "char")) j u h
        · rw [if_neg hbn] at h
          exact ihOP (i + 1) ek s j u h
      case LPAREN =>
        rcases hce : checkExpression ts f (i + 1) ek s with ⟨i1, s1⟩ | c | _ <;>
          simp only [hce] at h <;> try exact Res.noConfusion h
        exact (ihOP (i1 + 1) ek s1 j u h).trans (ihEX (i + 1) ek s i1 s1 hce)
      all_goals exact ihOP i ek s j u h
    · -- exprOpScan
      intro i ek s j u h
      simp only [exprOpScan] at h
      rcases hgo : ts.get? i with _ | t <;> simp only [hgo] at h
      · simp only [Res.ok.injEq, Prod.mk.injEq] at h
        obtain ⟨hj, hu⟩ := h
        subst hu; rfl
      · by_cases hop : isArithOp t.type = true
        · rw [if_pos hop] at h
          rcases hce : checkExpression ts f (i + 1) ek s with ⟨i2, s2⟩ | c | _ <;>
            simp only [hce] at h <;> try exact Res.noConfusion h
          exact (ihOP i2 ek s2 j u h).trans (ihEX (i + 1) ek s i2 s2 hce)
        · rw [if_neg hop] at h
          simp only [Res.ok.injEq, Prod.mk.injEq] at h
          obtain ⟨hj, hu⟩ := h
          subst hu; rfl

theorem checker_basics_indep (ts : List Token) : ∀ (fuel : Nat),
    (∀ i e vr fn sc b1 b2, VAgree vr b1 b2 →
      RelS (checkFunctionDeclaration ts fuel i ⟨e, vr, fn, sc, b1⟩)
        (checkFunctionDeclaration ts fuel i ⟨e, vr, fn, sc, b2⟩)) ∧
    (∀ i e vr fn sc b1 b2, VAgree vr b1 b2 →
      RelS (bodyScan ts fuel i ⟨e, vr, fn, sc, b1⟩)
        (bodyScan ts fuel i ⟨e, vr, fn, sc, b2⟩)) ∧
    (∀ i e vr fn sc b1 b2, VAgree vr b1 b2 →
      RelS (checkVariableDeclaration ts fuel i ⟨e, vr, fn, sc, b1⟩)
        (checkVariableDeclaration ts fuel i ⟨e, vr, fn, sc, b2⟩)) ∧
    (∀ i e vr fn sc b1 b2, VAgree vr b1 b2 →
      RelS (checkFunctionCall ts fuel i ⟨e, vr, fn, sc, b1⟩)
        (checkFunctionCall ts fuel i ⟨e, vr, fn, sc, b2⟩)) ∧
    (∀ i pidx func e vr fn sc b1 b2, VAgree vr b1 b2 →
      RelA (argScan ts fuel i pidx func ⟨e, vr, fn, sc, b1⟩)
        (argScan ts fuel i pidx func ⟨e, vr, fn, sc, b2⟩)) ∧
    (∀ i e vr fn sc b1 b2, VAgree vr b1 b2 →
      RelS (checkVariableUsage ts fuel i ⟨e, vr, fn, sc, b1⟩)
        (checkVariableUsage ts fuel i ⟨e, vr, fn, sc, b2⟩)) ∧
    (∀ i ek e vr fn sc b1 b2, VAgree vr b1 b2 →
      RelS (checkExpression ts fuel i ek ⟨e, vr, fn, sc, b1⟩)
        (checkExpression ts fuel i ek ⟨e, vr, fn, sc, b2⟩)) ∧
    (∀ i ek e vr fn sc b1 b2, VAgree vr b1 b2 →
      RelS (exprOpScan ts fuel i ek ⟨e, vr, fn, sc, b1⟩)
        (exprOpScan ts fuel i ek ⟨e, vr, fn, sc, b2⟩)) ∧
    (∀ i e vr fn sc b1 b2, VAgree vr b1 b2 →
      RelT (checkTypesLoop ts fuel i ⟨e, vr, fn, sc, b1⟩)
        (checkTypesLoop ts fuel i ⟨e, vr, fn, sc, b2⟩)) := by
  intro fuel
  induction fuel with
  | zero =>
    refine ⟨?_, ?_, ?_, ?_, ?_, ?_, ?_, ?_, ?_⟩ <;> (intros; trivial)
  | succ f ih =>
    obtain ⟨ihFD, ihBS, ihVD, ihFC, ihAS, ihVU, ihEX, ihOP, ihTL⟩ := ih
    have hEXb := (checker_basics_preserved ts f).2.2.2.1
    refine ⟨?_, ?_, ?_, ?_, ?_, ?_, ?_, ?_, ?_⟩
    · -- checkFunctionDeclaration
      intro i e vr fn sc b1 b2 hva
      simp only [checkFunctionDeclaration, pushSemErr]
      rcases hg1 : getTok ts i with t0 | c | _
      · simp only [hg1]
        rcases hg2 : basicKey t0.value with rk | c | _
        · simp only [hg2]
          rcases hg3 : getTok ts (i + 1) with t1 | c | _
          · simp only [hg3]
            by_cases hdup : (lookupA fn t1.value).isSome = true
            · simp only [if_pos hdup]
              refine relS_bindP _ _ _ _ _ _ rfl rfl
                (paramScan_basics_eq ts f (i + 3) [] _ vr fn sc b1 b2) ?_
              intro i1 params hps
              refine relS_bind _ _ _ _ _ _ rfl rfl
                (ihBS (i1 + 2) ((e ++ [⟨t0.line, t0.column, .functionAlreadyDeclared t1.value, .error⟩])) vr
                  (insertA fn t1.value ⟨t1.value, rk, params, false⟩) (sc + 1) b1 b2 hva) ?_
              intro j u v hu1 hu2 he hv hf2 hs hva2
              exact ⟨rfl, he, hv, hf2, congrArg (fun x => x - 1) hs, hva2⟩
            · simp only [if_neg hdup]
              refine relS_bindP _ _ _ _ _ _ rfl rfl
                (paramScan_basics_eq ts f (i + 3) [] _ vr fn sc b1 b2) ?_
              intro i1 params hps
              refine relS_bind _ _ _ _ _ _ rfl rfl
                (ihBS (i1 + 2) (e) vr
                  (insertA fn t1.value ⟨t1.value, rk, params, false⟩) (sc + 1) b1 b2 hva) ?_
              intro j u v hu1 hu2 he hv hf2 hs hva2
              exact ⟨rfl, he, hv, hf2, congrArg (fun x => x - 1) hs, hva2⟩
          · trivial
          · trivial
        · trivial
        · trivial
      · trivial
      · trivial
    · -- bodyScan
      intro i e vr fn sc b1 b2 hva
      simp only [bodyScan]
      rcases hg1 : getTok ts i with t | c | _
      · simp only [hg1]
        by_cases h1 : t.type = .RBRACE
        · simp only [if_pos h1]
          exact ⟨rfl, rfl, rfl, rfl, rfl, hva⟩
        · simp only [if_neg h1]
          by_cases h2 : isParamType t.type = true
          · simp only [if_pos h2]
            refine relS_bind _ _ _ _ _ _ rfl rfl (ihVD i e vr fn sc b1 b2 hva) ?_
            intro j u v hu1 hu2 he hv hf2 hs hva2
            exact relS_apply (bodyScan ts f (j + 1)) (ihBS (j + 1)) u v he hv hf2 hs hva2
          · simp only [if_neg h2]
            by_cases h3 : t.type = .IDENTIFIER
            · simp only [if_pos h3]
              by_cases h4 : nextIsLParen ts i = true
              · simp only [if_pos h4]
                refine relS_bind _ _ _ _ _ _ rfl rfl (ihFC i e vr fn sc b1 b2 hva) ?_
                intro j u v hu1 hu2 he hv hf2 hs hva2
                exact relS_apply (bodyScan ts f (j + 1)) (ihBS (j + 1)) u v he hv hf2 hs hva2
              · simp only [if_neg h4]
                refine relS_bind _ _ _ _ _ _ rfl rfl (ihVU i e vr fn sc b1 b2 hva) ?_
                intro j u v hu1 hu2 he hv hf2 hs hva2
                exact relS_apply (bodyScan ts f (j + 1)) (ihBS (j + 1)) u v he hv hf2 hs hva2
            · simp only [if_neg h3]
              exact ihBS (i + 1) e vr fn sc b1 b2 hva
      · trivial
      · trivial
    · -- checkVariableDeclaration
      intro i e vr fn sc b1 b2 hva
      simp only [checkVariableDeclaration, pushSemErr]
      rcases hg1 : getTok ts i with t0 | c | _
      · simp only [hg1]
        rcases hg2 : basicKey t0.value with k | c | _
        · simp only [hg2]
          rcases hg3 : getTok ts (i + 1) with t1 | c | _
          · simp only [hg3]
            rcases hlk2 : lookupA vr t1.value with _ | v0
            · simp only [hlk2]
              rcases hb2 : ts.get? (i + 2) with _ | tb
              · simp only [hb2]
                exact relS_vd_finish k false none t1.value false (i + 2) ⟨e, vr, fn, sc, b1⟩
                  ⟨e, vr, fn, sc, b2⟩ rfl rfl rfl rfl hva
              · by_cases hlb : tb.type = .LBRACKET
                · simp only [hb2, if_pos hlb]
                  rcases hg4 : getTok ts (i + 3) with tsz | c | _
                  · by_cases hint : tsz.type = .INTEGER
                    · simp only [hg4, if_pos hint]
                      rcases hg5 : pyInt tsz.value with n | c | _
                      · rcases hgi : ts.get? (i + 5) with _ | ta
                        · simp only [hg5, hgi]
                          exact relS_vd_finish k true (some n) t1.value false (i + 5) ⟨e, vr, fn, sc, b1⟩
                            ⟨e, vr, fn, sc, b2⟩ rfl rfl rfl rfl hva
                        · simp only [hg5, hgi]
                          by_cases ha : ta.type = .ASSIGN
                          · simp only [if_pos ha]
                            refine relB_bindS _ _ _ _ _ _ rfl rfl
                              (relS_bindB _ _ _ _ _ _ rfl rfl (ihEX (i + 5 + 1) k (e) vr fn sc b1 b2 hva) ?_) ?_
                            · intro j u v hu1 hu2 he hv hf2 hs hva2
                              exact ⟨rfl, rfl, he, hv, hf2, hs, hva2⟩
                            · intro j bb u v hu1 hu2 he hv hf2 hs hva2
                              exact relS_vd_finish k true (some n) t1.value bb j u v he hv hf2 hs hva2
                          · simp only [if_neg ha]
                            exact relS_vd_finish k true (some n) t1.value false (i + 5) ⟨e, vr, fn, sc, b1⟩
                              ⟨e, vr, fn, sc, b2⟩ rfl rfl rfl rfl hva
                      · trivial
                      · trivial
                    · simp only [hg4, if_neg hint]
                      rcases hgi : ts.get? (i + 5) with _ | ta
                      · simp only [hg4, hgi]
                        exact relS_vd_finish k true none t1.value false (i + 5) ⟨e, vr, fn, sc, b1⟩
                          ⟨e, vr, fn, sc, b2⟩ rfl rfl rfl rfl hva
                      · simp only [hg4, hgi]
                        by_cases ha : ta.type = .ASSIGN
                        · simp only [if_pos ha]
                          refine relB_bindS _ _ _ _ _ _ rfl rfl
                            (relS_bindB _ _ _ _ _ _ rfl rfl (ihEX (i + 5 + 1) k (e) vr fn sc b1 b2 hva) ?_) ?_
                          · intro j u v hu1 hu2 he hv hf2 hs hva2
                            exact ⟨rfl, rfl, he, hv, hf2, hs, hva2⟩
                          · intro j bb u v hu1 hu2 he hv hf2 hs hva2
                            exact relS_vd_finish k true none t1.value bb j u v he hv hf2 hs hva2
                        · simp only [if_neg ha]
                          exact relS_vd_finish k true none t1.value false (i + 5) ⟨e, vr, fn, sc, b1⟩
                            ⟨e, vr, fn, sc, b2⟩ rfl rfl rfl rfl hva
                  · trivial
                  · trivial
                · simp only [hb2, if_neg hlb]
                  by_cases ha : tb.type = .ASSIGN
                  · simp only [if_pos ha]
                    refine relB_bindS _ _ _ _ _ _ rfl rfl
                      (relS_bindB _ _ _ _ _ _ rfl rfl (ihEX (i + 2 + 1) k (e) vr fn sc b1 b2 hva) ?_) ?_
                    · intro j u v hu1 hu2 he hv hf2 hs hva2
                      exact ⟨rfl, rfl, he, hv, hf2, hs, hva2⟩
                    · intro j bb u v hu1 hu2 he hv hf2 hs hva2
                      exact relS_vd_finish k false none t1.value bb j u v he hv hf2 hs hva2
                  · simp only [if_neg ha]
                    exact relS_vd_finish k false none t1.value false (i + 2) ⟨e, vr, fn, sc, b1⟩
                      ⟨e, vr, fn, sc, b2⟩ rfl rfl rfl rfl hva
            · simp only [hlk2]
              by_cases hdv : v0.scope_level = sc
              · simp only [if_pos hdv]
                rcases hb2 : ts.get? (i + 2) with _ | tb
                · simp only [hb2]
                  exact relS_vd_finish k false none t1.value false (i + 2) ⟨(e ++ [⟨t0.line, t0.column, .variableAlreadyDeclaredInScope t1.value, .error⟩]), vr, fn, sc, b1⟩
                    ⟨(e ++ [⟨t0.line, t0.column, .variableAlreadyDeclaredInScope t1.value, .error⟩]), vr, fn, sc, b2⟩ rfl rfl rfl rfl hva
                · by_cases hlb : tb.type = .LBRACKET
                  · simp only [hb2, if_pos hlb]
                    rcases hg4 : getTok ts (i + 3) with tsz | c | _
                    · by_cases hint : tsz.type = .INTEGER
                      · simp only [hg4, if_pos hint]
                        rcases hg5 : pyInt tsz.value with n | c | _
                        · rcases hgi : ts.get? (i + 5) with _ | ta
                          · simp only [hg5, hgi]
                            exact relS_vd_finish k true (some n) t1.value false (i + 5) ⟨(e ++ [⟨t0.line, t0.column, .variableAlreadyDeclaredInScope t1.value, .error⟩]), vr, fn, sc, b1⟩
                              ⟨(e ++ [⟨t0.line, t0.column, .variableAlreadyDeclaredInScope t1.value, .error⟩]), vr, fn, sc, b2⟩ rfl rfl rfl rfl hva
                          · simp only [hg5, hgi]
                            by_cases ha : ta.type = .ASSIGN
                            · simp only [if_pos ha]
                              refine relB_bindS _ _ _ _ _ _ rfl rfl
                                (relS_bindB _ _ _ _ _ _ rfl rfl (ihEX (i + 5 + 1) k ((e ++ [⟨t0.line, t0.column, .variableAlreadyDeclaredInScope t1.value, .error⟩])) vr fn sc b1 b2 hva) ?_) ?_
                              · intro j u v hu1 hu2 he hv hf2 hs hva2
                                exact ⟨rfl, rfl, he, hv, hf2, hs, hva2⟩
                              · intro j bb u v hu1 hu2 he hv hf2 hs hva2
                                exact relS_vd_finish k true (some n) t1.value bb j u v he hv hf2 hs hva2
                            · simp only [if_neg ha]
                              exact relS_vd_finish k true (some n) t1.value false (i + 5) ⟨(e ++ [⟨t0.line, t0.column, .variableAlreadyDeclaredInScope t1.value, .error⟩]), vr, fn, sc, b1⟩
                                ⟨(e ++ [⟨t0.line, t0.column, .variableAlreadyDeclaredInScope t1.value, .error⟩]), vr, fn, sc, b2⟩ rfl rfl rfl rfl hva
                        · trivial
                        · trivial
                      · simp only [hg4, if_neg hint]
                        rcases hgi : ts.get? (i + 5) with _ | ta
                        · simp only [hg4, hgi]
                          exact relS_vd_finish k true none t1.value false (i + 5) ⟨(e ++ [⟨t0.line, t0.column, .variableAlreadyDeclaredInScope t1.value, .error⟩]), vr, fn, sc, b1⟩
                            ⟨(e ++ [⟨t0.line, t0.column, .variableAlreadyDeclaredInScope t1.value, .error⟩]), vr, fn, sc, b2⟩ rfl rfl rfl rfl hva
                        · simp only [hg4, hgi]
                          by_cases ha : ta.type = .ASSIGN
                          · simp only [if_pos ha]
                            refine relB_bindS _ _ _ _ _ _ rfl rfl
                              (relS_bindB _ _ _ _ _ _ rfl rfl (ihEX (i + 5 + 1) k ((e ++ [⟨t0.line, t0.column, .variableAlreadyDeclaredInScope t1.value, .error⟩])) vr fn sc b1 b2 hva) ?_) ?_
                            · intro j u v hu1 hu2 he hv hf2 hs hva2
                              exact ⟨rfl, rfl, he, hv, hf2, hs, hva2⟩
                            · intro j bb u v hu1 hu2 he hv hf2 hs hva2
                              exact relS_vd_finish k true none t1.value bb j u v he hv hf2 hs hva2
                          · simp only [if_neg ha]
                            exact relS_vd_finish k true none t1.value false (i + 5) ⟨(e ++ [⟨t0.line, t0.column, .variableAlreadyDeclaredInScope t1.value, .error⟩]), vr, fn, sc, b1⟩
                              ⟨(e ++ [⟨t0.line, t0.column, .variableAlreadyDeclaredInScope t1.value, .error⟩]), vr, fn, sc, b2⟩ rfl rfl rfl rfl hva
                    · trivial
                    · trivial
                  · simp only [hb2, if_neg hlb]
                    by_cases ha : tb.type = .ASSIGN
                    · simp only [if_pos ha]
                      refine relB_bindS _ _ _ _ _ _ rfl rfl
                        (relS_bindB _ _ _ _ _ _ rfl rfl (ihEX (i + 2 + 1) k ((e ++ [⟨t0.line, t0.column, .variableAlreadyDeclaredInScope t1.value, .error⟩])) vr fn sc b1 b2 hva) ?_) ?_
                      · intro j u v hu1 hu2 he hv hf2 hs hva2
                        exact ⟨rfl, rfl, he, hv, hf2, hs, hva2⟩
                      · intro j bb u v hu1 hu2 he hv hf2 hs hva2
                        exact relS_vd_finish k false none t1.value bb j u v he hv hf2 hs hva2
                    · simp only [if_neg ha]
                      exact relS_vd_finish k false none t1.value false (i + 2) ⟨(e ++ [⟨t0.line, t0.column, .variableAlreadyDeclaredInScope t1.value, .error⟩]), vr, fn, sc, b1⟩
                        ⟨(e ++ [⟨t0.line, t0.column, .variableAlreadyDeclaredInScope t1.value, .error⟩]), vr, fn, sc, b2⟩ rfl rfl rfl rfl hva
              · simp only [if_neg hdv]
                rcases hb2 : ts.get? (i + 2) with _ | tb
                · simp only [hb2]
                  exact relS_vd_finish k false none t1.value false (i + 2) ⟨e, vr, fn, sc, b1⟩
                    ⟨e, vr, fn, sc, b2⟩ rfl rfl rfl rfl hva
                · by_cases hlb : tb.type = .LBRACKET
                  · simp only [hb2, if_pos hlb]
                    rcases hg4 : getTok ts (i + 3) with tsz | c | _
                    · by_cases hint : tsz.type = .INTEGER
                      · simp only [hg4, if_pos hint]
                        rcases hg5 : pyInt tsz.value with n | c | _
                        · rcases hgi : ts.get? (i + 5) with _ | ta
                          · simp only [hg5, hgi]
                            exact relS_vd_finish k true (some n) t1.value false (i + 5) ⟨e, vr, fn, sc, b1⟩
                              ⟨e, vr, fn, sc, b2⟩ rfl rfl rfl rfl hva
                          · simp only [hg5, hgi]
                            by_cases ha : ta.type = .ASSIGN
                            · simp only [if_pos ha]
                              refine relB_bindS _ _ _ _ _ _ rfl rfl
                                (relS_bindB _ _ _ _ _ _ rfl rfl (ihEX (i + 5 + 1) k (e) vr fn sc b1 b2 hva) ?_) ?_
                              · intro j u v hu1 hu2 he hv hf2 hs hva2
                                exact ⟨rfl, rfl, he, hv, hf2, hs, hva2⟩
                              · intro j bb u v hu1 hu2 he hv hf2 hs hva2
                                exact relS_vd_finish k true (some n) t1.value bb j u v he hv hf2 hs hva2
                            · simp only [if_neg ha]
                              exact relS_vd_finish k true (some n) t1.value false (i + 5) ⟨e, vr, fn, sc, b1⟩
                                ⟨e, vr, fn, sc, b2⟩ rfl rfl rfl rfl hva
                        · trivial
                        · trivial
                      · simp only [hg4, if_neg hint]
                        rcases hgi : ts.get? (i + 5) with _ | ta
                        · simp only [hg4, hgi]
                          exact relS_vd_finish k true none t1.value false (i + 5) ⟨e, vr, fn, sc, b1⟩
                            ⟨e, vr, fn, sc, b2⟩ rfl rfl rfl rfl hva
                        · simp only [hg4, hgi]
                          by_cases ha : ta.type = .ASSIGN
                          · simp only [if_pos ha]
                            refine relB_bindS _ _ _ _ _ _ rfl rfl
                              (relS_bindB _ _ _ _ _ _ rfl rfl (ihEX (i + 5 + 1) k (e) vr fn sc b1 b2 hva) ?_) ?_
                            · intro j u v hu1 hu2 he hv hf2 hs hva2
                              exact ⟨rfl, rfl, he, hv, hf2, hs, hva2⟩
                            · intro j bb u v hu1 hu2 he hv hf2 hs hva2
                              exact relS_vd_finish k true none t1.value bb j u v he hv hf2 hs hva2
                          · simp only [if_neg ha]
                            exact relS_vd_finish k true none t1.value false (i + 5) ⟨e, vr, fn, sc, b1⟩
                              ⟨e, vr, fn, sc, b2⟩ rfl rfl rfl rfl hva
                    · trivial
                    · trivial
                  · simp only [hb2, if_neg hlb]
                    by_cases ha : tb.type = .ASSIGN
                    · simp only [if_pos ha]
                      refine relB_bindS _ _ _ _ _ _ rfl rfl
                        (relS_bindB _ _ _ _ _ _ rfl rfl (ihEX (i + 2 + 1) k (e) vr fn sc b1 b2 hva) ?_) ?_
                      · intro j u v hu1 hu2 he hv hf2 hs hva2
                        exact ⟨rfl, rfl, he, hv, hf2, hs, hva2⟩
                      · intro j bb u v hu1 hu2 he hv hf2 hs hva2
                        exact relS_vd_finish k false none t1.value bb j u v he hv hf2 hs hva2
                    · simp only [if_neg ha]
                      exact relS_vd_finish k false none t1.value false (i + 2) ⟨e, vr, fn, sc, b1⟩
                        ⟨e, vr, fn, sc, b2⟩ rfl rfl rfl rfl hva
          · trivial
          · trivial
        · trivial
        · trivial
      · trivial
      · trivial
    · -- checkFunctionCall
      intro i e vr fn sc b1 b2 hva
      simp only [checkFunctionCall, pushSemErr]
      rcases hg1 : getTok ts i with t0 | c | _
      · simp only [hg1]
        rcases hlkf : lookupA fn t0.value with _ | func
        · simp only [hlkf]
          exact ⟨rfl, rfl, rfl, rfl, rfl, hva⟩
        · simp only [hlkf]
          refine relA_bindS _ _ _ _ _ _ rfl rfl (ihAS (i + 2) 0 func e vr fn sc b1 b2 hva) ?_
          intro j p u v hu1 hu2 he hv hf2 hs hva2
          by_cases hlt2 : p < func.parameters.length
          · simp only [if_pos hlt2]
            refine ⟨rfl, ?_, hv, hf2, hs, hva2⟩
            show u.errors ++ _ = v.errors ++ _
            rw [he]
          · simp only [if_neg hlt2]
            exact ⟨rfl, he, hv, hf2, hs, hva2⟩
      · trivial
      · trivial
    · -- argScan
      intro i pidx func e vr fn sc b1 b2 hva
      simp only [argScan, pushSemErr]
      rcases hg1 : getTok ts i with t | c | _
      · simp only [hg1]
        by_cases hr : t.type = .RPAREN
        · simp only [if_pos hr]
          exact ⟨rfl, rfl, rfl, rfl, rfl, rfl, hva⟩
        · simp only [if_neg hr]
          by_cases hp : pidx < func.parameters.length
          · simp only [dif_pos hp]
            refine relS_bindA _ _ _ _ _ _ rfl rfl
              (ihEX i (func.parameters.get ⟨pidx, hp⟩).base e vr fn sc b1 b2 hva) ?_
            intro j u v hu1 hu2 he hv hf2 hs hva2
            rcases getTok ts j with t1 | c | _
            · exact relA_apply (argScan ts f (if t1.type = .COMMA then j + 1 else j) (pidx + 1) func)
                (ihAS (if t1.type = .COMMA then j + 1 else j) (pidx + 1) func) u v he hv hf2 hs hva2
            · trivial
            · trivial
          · simp only [dif_neg hp]
            exact ⟨rfl, rfl, rfl, rfl, rfl, rfl, hva⟩
      · trivial
      · trivial
    · -- checkVariableUsage
      intro i e vr fn sc b1 b2 hva
      simp only [checkVariableUsage, pushSemErr]
      rcases hg1 : getTok ts i with t0 | c | _
      · simp only [hg1]
        rcases hlk : lookupA vr t0.value with _ | var
        · simp only [hlk]
          exact ⟨rfl, rfl, rfl, rfl, rfl, hva⟩
        · simp only [hlk]
          have hag : (getB b1 var.base).is_array = (getB b2 var.base).is_array :=
            hva (t0.value, var) (lookupA_mem vr t0.value var hlk)
          rcases hb : ts.get? (i + 1) with _ | tb
          · simp only [hb]
            exact ⟨rfl, rfl, rfl, rfl, rfl, hva⟩
          · by_cases hlb : tb.type = .LBRACKET
            · simp only [hb, if_pos hlb]
              rw [← hag]
              by_cases harr : (getB b1 var.base).is_array = true
              · simp only [if_pos harr]
                refine relS_bind _ _ _ _ _ _ rfl rfl
                  (relS_bind _ _ _ _ _ _ rfl rfl (ihEX (i + 2) .int (e) vr fn sc b1 b2 hva) ?_) ?_
                · intro j u v hu1 hu2 he hv hf2 hs hva2
                  exact ⟨rfl, he, hv, hf2, hs, hva2⟩
                · intro I u v hu1 hu2 he hv hf2 hs hva2
                  have hub : u.basics = b1 := by
                    rcases hce : checkExpression ts f (i + 2) .int ⟨e, vr, fn, sc, b1⟩ with ⟨i2, s2⟩ | c | _ <;>
                      simp only [hce] at hu1
                    · simp only [Res.ok.injEq, Prod.mk.injEq] at hu1
                      obtain ⟨hI, hu⟩ := hu1
                      subst hu
                      exact hEXb (i + 2) .int ⟨e, vr, fn, sc, b1⟩ i2 s2 hce
                    · exact Res.noConfusion hu1
                    · exact Res.noConfusion hu1
                  have hvb : v.basics = b2 := by
                    rcases hce : checkExpression ts f (i + 2) .int ⟨e, vr, fn, sc, b2⟩ with ⟨i2, s2⟩ | c | _ <;>
                      simp only [hce] at hu2
                    · simp only [Res.ok.injEq, Prod.mk.injEq] at hu2
                      obtain ⟨hI, hu⟩ := hu2
                      subst hu
                      exact hEXb (i + 2) .int ⟨e, vr, fn, sc, b2⟩ i2 s2 hce
                    · exact Res.noConfusion hu2
                    · exact Res.noConfusion hu2
                  rcases hgi : ts.get? I with _ | ta
                  · simp only [hgi]
                    exact ⟨rfl, he, hv, hf2, hs, hva2⟩
                  · simp only [hgi]
                    by_cases ha : ta.type = .ASSIGN
                    · simp only [if_pos ha]
                      refine relS_bind _ _ _ _ _ _ rfl rfl
                        (relS_apply (checkExpression ts f (I + 1) var.base) (ihEX (I + 1) var.base)
                          u v he hv hf2 hs hva2) ?_
                      intro j u2 v2 h3 h4 he3 hv3 hf3 hs3 hva3
                      have hu2b : u2.basics = u.basics := hEXb (I + 1) var.base u j u2 h3
                      have hv2b : v2.basics = v.basics := hEXb (I + 1) var.base v j v2 h4
                      refine ⟨rfl, he3, ?_, hf3, hs3, ?_⟩
                      · show insertA u2.vars t0.value _ = insertA v2.vars t0.value _
                        rw [hv3]
                      · refine vagree_insert_agree u2.vars u2.basics v2.basics t0.value _ hva3 ?_
                        rw [hu2b, hv2b, hub, hvb]
                        exact hag
                    · simp only [if_neg ha]
                      exact ⟨rfl, he, hv, hf2, hs, hva2⟩
              · simp only [if_neg harr]
                refine relS_bind _ _ _ _ _ _ rfl rfl
                  (relS_bind _ _ _ _ _ _ rfl rfl (ihEX (i + 2) .int ((e ++ [⟨tb.line, tb.column, .notAnArray t0.value, .error⟩])) vr fn sc b1 b2 hva) ?_) ?_
                · intro j u v hu1 hu2 he hv hf2 hs hva2
                  exact ⟨rfl, he, hv, hf2, hs, hva2⟩
                · intro I u v hu1 hu2 he hv hf2 hs hva2
                  have hub : u.basics = b1 := by
                    rcases hce : checkExpression ts f (i + 2) .int ⟨(e ++ [⟨tb.line, tb.column, .notAnArray t0.value, .error⟩]), vr, fn, sc, b1⟩ with ⟨i2, s2⟩ | c | _ <;>
                      simp only [hce] at hu1
                    · simp only [Res.ok.injEq, Prod.mk.injEq] at hu1
                      obtain ⟨hI, hu⟩ := hu1
                      subst hu
                      exact hEXb (i + 2) .int ⟨(e ++ [⟨tb.line, tb.column, .notAnArray t0.value, .error⟩]), vr, fn, sc, b1⟩ i2 s2 hce
                    · exact Res.noConfusion hu1
                    · exact Res.noConfusion hu1
                  have hvb : v.basics = b2 := by
                    rcases hce : checkExpression ts f (i + 2) .int ⟨(e ++ [⟨tb.line, tb.column, .notAnArray t0.value, .error⟩]), vr, fn, sc, b2⟩ with ⟨i2, s2⟩ | c | _ <;>
                      simp only [hce] at hu2
                    · simp only [Res.ok.injEq, Prod.mk.injEq] at hu2
                      obtain ⟨hI, hu⟩ := hu2
                      subst hu
                      exact hEXb (i + 2) .int ⟨(e ++ [⟨tb.line, tb.column, .notAnArray t0.value, .error⟩]), vr, fn, sc, b2⟩ i2 s2 hce
                    · exact Res.noConfusion hu2
                    · exact Res.noConfusion hu2
                  rcases hgi : ts.get? I with _ | ta
                  · simp only [hgi]
                    exact ⟨rfl, he, hv, hf2, hs, hva2⟩
                  · simp only [hgi]
                    by_cases ha : ta.type = .ASSIGN
                    · simp only [if_pos ha]
                      refine relS_bind _ _ _ _ _ _ rfl rfl
                        (relS_apply (checkExpression ts f (I + 1) var.base) (ihEX (I + 1) var.base)
                          u v he hv hf2 hs hva2) ?_
                      intro j u2 v2 h3 h4 he3 hv3 hf3 hs3 hva3
                      have hu2b : u2.basics = u.basics := hEXb (I + 1) var.base u j u2 h3
                      have hv2b : v2.basics = v.basics := hEXb (I + 1) var.base v j v2 h4
                      refine ⟨rfl, he3, ?_, hf3, hs3, ?_⟩
                      · show insertA u2.vars t0.value _ = insertA v2.vars t0.value _
                        rw [hv3]
                      · refine vagree_insert_agree u2.vars u2.basics v2.basics t0.value _ hva3 ?_
                        rw [hu2b, hv2b, hub, hvb]
                        exact hag
                    · simp only [if_neg ha]
                      exact ⟨rfl, he, hv, hf2, hs, hva2⟩
            · simp only [hb, if_neg hlb]
              by_cases ha : tb.type = .ASSIGN
              · simp only [if_pos ha]
                refine relS_bind _ _ _ _ _ _ rfl rfl (ihEX (i + 1 + 1) var.base e vr fn sc b1 b2 hva) ?_
                intro j u2 v2 h3 h4 he3 hv3 hf3 hs3 hva3
                have hu2b : u2.basics = b1 := hEXb (i + 1 + 1) var.base ⟨e, vr, fn, sc, b1⟩ j u2 h3
                have hv2b : v2.basics = b2 := hEXb (i + 1 + 1) var.base ⟨e, vr, fn, sc, b2⟩ j v2 h4
                refine ⟨rfl, he3, ?_, hf3, hs3, ?_⟩
                · show insertA u2.vars t0.value _ = insertA v2.vars t0.value _
                  rw [hv3]
                · refine vagree_insert_agree u2.vars u2.basics v2.basics t0.value _ hva3 ?_
                  rw [hu2b, hv2b]
                  exact hag
              · simp only [if_neg ha]
                exact ⟨rfl, rfl, rfl, rfl, rfl, hva⟩
      · trivial
      · trivial
    · -- checkExpression
      intro i ek e vr fn sc b1 b2 hva
      simp only [checkExpression, pushSemErr]
      rcases hg1 : getTok ts i with t | c | _
      · simp only [hg1]
        cases htt : t.type
        case IDENTIFIER =>
          by_cases hnl : nextIsLParen ts i = true
          · simp only [htt, if_pos hnl]
            refine relS_bind _ _ _ _ _ _ rfl rfl (ihFC i e vr fn sc b1 b2 hva) ?_
            intro j u v hu1 hu2 he hv hf2 hs hva2
            exact relS_apply (exprOpScan ts f j ek) (ihOP j ek) u v he hv hf2 hs hva2
          · simp only [htt, if_neg hnl]
            refine relS_bind _ _ _ _ _ _ rfl rfl (ihVU i e vr fn sc b1 b2 hva) ?_
            intro j u v hu1 hu2 he hv hf2 hs hva2
            exact relS_apply (exprOpScan ts f j ek) (ihOP j ek) u v he hv hf2 hs hva2
        case INTEGER =>
          by_cases hbn : baseName ek ≠ "int"
          · simp only [htt, if_pos hbn]
            exact ihOP (i + 1) ek (e ++ [⟨t.line, t.column, .typeMismatch (baseName ek) "int", .error⟩]) vr fn sc b1 b2 hva
          · simp only [htt, if_neg hbn]
            exact ihOP (i + 1) ek e vr fn sc b1 b2 hva
        case FLOAT_LITERAL =>
          by_cases hbn : baseName ek ≠ "float"
          · simp only [htt, if_pos hbn]
            exact ihOP (i + 1) ek (e ++ [⟨t.line, t.column, .typeMismatch (baseName ek) "float", .error⟩]) vr fn sc b1 b2 hva
          · simp only [htt, if_neg hbn]
            exact ihOP (i + 1) ek e vr fn sc b1 b2 hva
        case CHAR_LITERAL =>
          by_cases hbn : baseName ek ≠ "char"
          · simp only [htt, if_pos hbn]
            exact ihOP (i + 1) ek (e ++ [⟨t.line, t.column, .typeMismatch (baseName ek) "char", .error⟩]) vr fn sc b1 b2 hva
          · simp only [htt, if_neg hbn]
            exact ihOP (i + 1) ek e vr fn sc b1 b2 hva
        case LPAREN =>
          simp only [htt]
          refine relS_bind _ _ _ _ _ _ rfl rfl
            (relS_bind _ _ _ _ _ _ rfl rfl (ihEX (i + 1) ek e vr fn sc b1 b2 hva) ?_) ?_
          · intro j u v hu1 hu2 he hv hf2 hs hva2
            exact ⟨rfl, he, hv, hf2, hs, hva2⟩
          · intro j u v hu1 hu2 he hv hf2 hs hva2
            exact relS_apply (exprOpScan ts f j ek) (ihOP j ek) u v he hv hf2 hs hva2
        all_goals exact ihOP i ek e vr fn sc b1 b2 hva
      · trivial
      · trivial
    · -- exprOpScan
      intro i ek e vr fn sc b1 b2 hva
      simp only [exprOpScan]
      rcases hgo : ts.get? i with _ | t
      · simp only [hgo]
        exact ⟨rfl, rfl, rfl, rfl, rfl, hva⟩
      · simp only [hgo]
        by_cases hop : isArithOp t.type = true
        · simp only [if_pos hop]
          refine relS_bind _ _ _ _ _ _ rfl rfl (ihEX (i + 1) ek e vr fn sc b1 b2 hva) ?_
          intro j u v hu1 hu2 he hv hf2 hs hva2
          exact relS_apply (exprOpScan ts f j ek) (ihOP j ek) u v he hv hf2 hs hva2
        · simp only [if_neg hop]
          exact ⟨rfl, rfl, rfl, rfl, rfl, hva⟩
    · -- checkTypesLoop
      intro i e vr fn sc b1 b2 hva
      simp only [checkTypesLoop]
      by_cases hlt : i < ts.length
      · rw [dif_pos hlt, dif_pos hlt]
        by_cases ht1 : isTypeStart (ts.get ⟨i, hlt⟩).type = true
        · simp only [ht1, if_true]
          by_cases ht2 : typeAtIs ts (i + 2) .LPAREN = true
          · simp only [ht2, if_true]
            refine relS_bindT _ _ _ _ _ _ rfl rfl (ihFD i e vr fn sc b1 b2 hva) ?_
            intro j u v hu1 hu2 he hv hf2 hs hva2
            exact relT_apply (checkTypesLoop ts f (j + 1)) (ihTL (j + 1)) u v he hv hf2 hs hva2
          · simp only [ht2, if_false]
            refine relS_bindT _ _ _ _ _ _ rfl rfl (ihVD i e vr fn sc b1 b2 hva) ?_
            intro j u v hu1 hu2 he hv hf2 hs hva2
            exact relT_apply (checkTypesLoop ts f (j + 1)) (ihTL (j + 1)) u v he hv hf2 hs hva2
        · simp only [ht1, if_false]
          by_cases ht3 : (ts.get ⟨i, hlt⟩).type = .IDENTIFIER
          · simp only [ht3, if_true]
            by_cases ht4 : nextIsLParen ts i = true
            · simp only [ht4, if_true]
              refine relS_bindT _ _ _ _ _ _ rfl rfl (ihFC i e vr fn sc b1 b2 hva) ?_
              intro j u v hu1 hu2 he hv hf2 hs hva2
              exact relT_apply (checkTypesLoop ts f (j + 1)) (ihTL (j + 1)) u v he hv hf2 hs hva2
            · simp only [ht4, if_false]
              refine relS_bindT _ _ _ _ _ _ rfl rfl (ihVU i e vr fn sc b1 b2 hva) ?_
              intro j u v hu1 hu2 he hv hf2 hs hva2
              exact relT_apply (checkTypesLoop ts f (j + 1)) (ihTL (j + 1)) u v he hv hf2 hs hva2
          · simp only [ht3, if_false]
            exact ihTL (i + 1) e vr fn sc b1 b2 hva
      · rw [dif_neg hlt, dif_neg hlt]
        exact ⟨rfl, rfl, rfl, rfl, hva⟩

theorem relT_resErrors (r1 r2 : Res TCState) (h : RelT r1 r2) :
    resErrors r1 = resErrors r2 := by
  rcases r1 with u | c1 | _ <;> rcases r2 with v | c2 | _ <;>
    simp only [RelT] at h <;> try exact h.elim
  · show Res.ok u.errors = Res.ok v.errors
    rw [h.1]
  · subst h; rfl
  · rfl

theorem checkTypesFull_basics_indep (ts : List Token) (fuel : Nat) (s s' : TCState) :
    RelT (checkTypesFull ts fuel s) (checkTypesFull ts fuel s') :=
  ((checker_basics_indep ts fuel).2.2.2.2.2.2.2.2) 0 [] [] [] 0 s.basics s'.basics
    (fun p hp => absurd hp (List.not_mem_nil p))

/-- C8: analysis runs are repeatable.  If a first call of check_types on a
token list returns normally, leaving the analyzer in state s1 (in which the
shared basic-type objects may have been mutated), then a second call of
check_types on the same token list from s1 produces exactly the same
diagnostic outcome as the first call: the error list, symbol state and
scope are rebuilt from empty at the start of every run, and the surviving
basic-types contents never influence the diagnostics. -/
theorem check_types_repeatable (ts : List Token) (fuel : Nat) (s1 : TCState)
    (h : checkTypesFull ts fuel initTC = .ok s1) :
    resErrors (checkTypesFull ts fuel s1) = resErrors (checkTypesFull ts fuel initTC) :=
  relT_resErrors _ _ (checkTypesFull_basics_indep ts fuel s1 initTC)

theorem check_types_repeatable_witness :
    checkTypesFull c1Toks 100 initTC = .ok wC8 ∧
    resErrors (checkTypesFull c1Toks 100 wC8) = resErrors (checkTypesFull c1Toks 100 initTC) :=
  ⟨by rfl, check_types_repeatable c1Toks 100 wC8 (by rfl)⟩


end PblCd
